import Mathlib

/-!
Shallow embedding of the agentic-swarm-platform core (src/src/models/task.py,
src/src/core/task_queue.py, src/src/models/agent.py, src/src/agents/agent_pool.py,
src/src/agents/base_agent.py, src/src/core/orchestrator.py,
src/src/services/rate_limiter.py) together with theorems settling the claims
about the task dependency graph, the retry policy, worker selection, the rate
limiter and the error-containment boundaries.

Modelling conventions:
- Python `UUID` task/agent ids are opaque; they are embedded as `Nat`.
- A Python `dict[UUID, Task]` is embedded as an insertion-ordered association
  list `List (Nat × Task)`; `dict` iteration order is insertion order, and
  assignment to an existing key keeps its position, which `assocSet` mirrors.
- Python `float` metric/bucket values are embedded as `ℚ` (the comparisons the
  code performs are order comparisons, which agree with the rational values).
- `datetime.now()` wall-clock timestamps are irrelevant to every claim and are
  not carried in the embedded records.
- Python string comparison (used by the sort key on `complexity.value`) is
  lexicographic on code points; `pyStrLt` implements exactly that.
-/

namespace Swarm

/-- Lexicographic code-point comparison of char lists, as Python compares
strings. -/
def strLtChars : List Char → List Char → Bool
  | [], [] => false
  | [], _ :: _ => true
  | _ :: _, [] => false
  | c :: cs, d :: ds =>
    if c.toNat < d.toNat then true
    else if d.toNat < c.toNat then false
    else strLtChars cs ds

/-- Python `<` on strings: lexicographic by code point. -/
def pyStrLt (a b : String) : Bool := strLtChars a.data b.data

/-- Python `<=` on strings. -/
def pyStrLe (a b : String) : Bool := pyStrLt a b || a == b

/-- Enum `TaskType` from src/src/models/task.py. -/
inductive TaskType
  | code_generation
  | documentation
  | analysis
  | testing
deriving DecidableEq, Repr

/-- Enum `TaskPriority` from src/src/models/task.py. -/
inductive TaskPriority
  | critical
  | high
  | medium
  | low
deriving DecidableEq, Repr

/-- Conversion `TaskPriority.to_numeric`: `{"critical": 4, "high": 3, "medium": 2, "low": 1}`. -/
def TaskPriority.to_numeric : TaskPriority → Nat
  | .critical => 4
  | .high => 3
  | .medium => 2
  | .low => 1

/-- Enum `TaskStatus` from src/src/models/task.py. -/
inductive TaskStatus
  | pending
  | queued
  | in_progress
  | completed
  | failed
  | blocked
deriving DecidableEq, Repr

/-- Enum `TaskComplexity` from src/src/models/task.py. -/
inductive TaskComplexity
  | small
  | medium
  | large
deriving DecidableEq, Repr

/-- The `.value` string of each `TaskComplexity` member (the sort in
`get_ready_tasks` compares these strings). -/
def TaskComplexity.value : TaskComplexity → String
  | .small => "small"
  | .medium => "medium"
  | .large => "large"

/-- Model `Task` (src/src/models/task.py); fields relevant to the verified claims.
`description`, `context`, `inputs`, the wall-clock timestamps and the result
payload type do not affect any claim; the result payload is kept as an opaque
`String`. -/
structure Task where
  id : Nat
  type : TaskType := .code_generation
  title : String := ""
  priority : TaskPriority := .medium
  status : TaskStatus := .pending
  complexity : TaskComplexity := .medium
  depends_on : List Nat := []
  blocks : List Nat := []
  assigned_agent_id : Option Nat := none
  retry_count : Nat := 0
  error_message : Option String := none
  result : Option String := none
deriving DecidableEq, Repr

/-- Readiness check `Task.is_ready`: pending and every dependency id in the completed set. -/
def Task.is_ready (t : Task) (completed_task_ids : List Nat) : Bool :=
  if t.status ≠ TaskStatus.pending then false
  else t.depends_on.all fun dep_id => decide (dep_id ∈ completed_task_ids)

/-- Transition `Task.mark_in_progress`. -/
def Task.mark_in_progress (t : Task) (agent_id : Nat) : Task :=
  { t with status := TaskStatus.in_progress, assigned_agent_id := some agent_id }

/-- Transition `Task.mark_completed`. -/
def Task.mark_completed (t : Task) (result : String) : Task :=
  { t with status := TaskStatus.completed, result := some result }

/-- Transition `Task.mark_failed`: sets status `failed`, records the error and increments
`retry_count`. -/
def Task.mark_failed (t : Task) (error : String) : Task :=
  { t with status := TaskStatus.failed, error_message := some error,
           retry_count := t.retry_count + 1 }

/-- Dict assignment `d[k] = v`: replace in place if the key exists (keeping its
insertion position, as Python dicts do), else append. -/
def assocSet (l : List (Nat × Task)) (k : Nat) (v : Task) : List (Nat × Task) :=
  match l with
  | [] => [(k, v)]
  | (k', v') :: rest => if k' = k then (k, v) :: rest else (k', v') :: assocSet rest k v

/-- In-place update of the value at key `k`, if present (`d[k].mutate()` in the
source); absent keys are untouched. -/
def assocUpdate (l : List (Nat × Task)) (k : Nat) (f : Task → Task) : List (Nat × Task) :=
  match l with
  | [] => []
  | (k', v') :: rest =>
    if k' = k then (k', f v') :: rest else (k', v') :: assocUpdate rest k f

/-- Model `TaskDependencyGraph` (src/src/models/task.py): `tasks: dict[UUID, Task]`. -/
structure TaskDependencyGraph where
  tasks : List (Nat × Task) := []
deriving DecidableEq, Repr

namespace TaskDependencyGraph

/-- Dict lookup `self.tasks[task_id]` / `self.tasks.get(task_id)`. -/
def findTask (g : TaskDependencyGraph) (task_id : Nat) : Option Task :=
  (g.tasks.find? fun p => p.1 = task_id).map Prod.snd

/-- Membership test `task_id in self.tasks`. -/
def containsTask (g : TaskDependencyGraph) (task_id : Nat) : Bool :=
  (g.findTask task_id).isSome

/-- View `self.tasks.values()`. -/
def values (g : TaskDependencyGraph) : List Task :=
  g.tasks.map Prod.snd

/-- Insertion `TaskDependencyGraph.add_task`: stores the task under its id (overwriting
any existing entry, as dict assignment does), then appends the new id to the
`blocks` list of every dependency already present (if not already there). -/
def add_task (g : TaskDependencyGraph) (task : Task) : TaskDependencyGraph :=
  let ts := assocSet g.tasks task.id task
  ⟨task.depends_on.foldl
    (fun acc dep_id =>
      assocUpdate acc dep_id fun d =>
        if task.id ∈ d.blocks then d else { d with blocks := d.blocks ++ [task.id] })
    ts⟩

/-- The set (as a list) of ids of completed tasks, `completed_ids` in
`get_ready_tasks`. -/
def completedIds (g : TaskDependencyGraph) : List Nat :=
  (g.tasks.filter fun p => p.2.status = TaskStatus.completed).map Prod.fst

/-- The Python sort key of `get_ready_tasks`:
`(-t.priority.to_numeric(), t.complexity.value)` — note the second component
is the complexity enum's *string* value. -/
def sortKey (t : Task) : Int × String :=
  (-(t.priority.to_numeric : Int), t.complexity.value)

/-- Comparison `key a <= key b` for the Python tuple key (lexicographic; strings compared
as Python compares them). -/
def taskKeyLe (a b : Task) : Bool :=
  decide ((sortKey a).1 < (sortKey b).1) ||
    (decide ((sortKey a).1 = (sortKey b).1) && pyStrLe (sortKey a).2 (sortKey b).2)

/-- Stable insertion of a task into a key-sorted list: `a` goes in front of the
first element it is `taskKeyLe`-below-or-equal, hence after earlier-listed
elements with an equal key. -/
def sortedInsertTask (a : Task) : List Task → List Task
  | [] => [a]
  | b :: l => if taskKeyLe a b then a :: b :: l else b :: sortedInsertTask a l

/-- Stable sort by the Python key: `list.sort(key=...)` is a stable ascending
sort by key, and a stable insertion sort computes the identical list. -/
def sortTasks : List Task → List Task
  | [] => []
  | b :: l => sortedInsertTask b (sortTasks l)

/-- Query `TaskDependencyGraph.get_ready_tasks`: the pending tasks whose dependencies
are all completed, sorted by `(-priority.to_numeric(), complexity.value)`. -/
def get_ready_tasks (g : TaskDependencyGraph) : List Task :=
  let completed_ids := g.completedIds
  let ready_tasks := g.values.filter fun t => t.is_ready completed_ids
  sortTasks ready_tasks

/-- Transition `TaskDependencyGraph.mark_task_completed` (no-op on a missing id). -/
def mark_task_completed (g : TaskDependencyGraph) (task_id : Nat) (result : String) :
    TaskDependencyGraph :=
  ⟨assocUpdate g.tasks task_id fun t => t.mark_completed result⟩

/-- Transition `TaskDependencyGraph.mark_task_failed` (no-op on a missing id). -/
def mark_task_failed (g : TaskDependencyGraph) (task_id : Nat) (error : String) :
    TaskDependencyGraph :=
  ⟨assocUpdate g.tasks task_id fun t => t.mark_failed error⟩

/-- Predicate `TaskDependencyGraph.is_complete`: every task `completed` or `failed`. -/
def is_complete (g : TaskDependencyGraph) : Bool :=
  g.tasks.all fun p =>
    p.2.status = TaskStatus.completed ∨ p.2.status = TaskStatus.failed

/-- Outcome of the recursive `dfs` helper of `validate_no_cycles`: either the
updated `visited` set, or the titles of a detected dependency cycle.
`noFuel` is an artifact of the fuel-indexed embedding; `validate_no_cycles`
runs with more fuel than the recursion can consume (see `dfsVisit_ranked`). -/
inductive DfsResult
  | ok (visited : List Nat)
  | cycle (titles : List String)
  | noFuel
deriving DecidableEq, Repr

/-- The suffix of `path` starting at the first occurrence of `u`
(`path[path.index(u):]` in the source). -/
def pathFrom (path : List Nat) (u : Nat) : List Nat :=
  match path with
  | [] => []
  | x :: xs => if x = u then x :: xs else pathFrom xs u

/-- Title of the task stored under `tid` (`self.tasks[tid].title`; every id on
the DFS path is a key of the graph, so the lookup always succeeds). -/
def titleOf (g : TaskDependencyGraph) (tid : Nat) : String :=
  match g.findTask tid with
  | some t => t.title
  | none => ""

/-- The reported cycle: titles from the first occurrence of `task_id` on the
path through the end of the path, then `task_id`'s title again. -/
def cycleTitles (g : TaskDependencyGraph) (path : List Nat) (task_id : Nat) : List String :=
  (pathFrom path task_id).map (titleOf g) ++ [titleOf g task_id]

/-- The `for dep_id in task.depends_on: if dep_id in self.tasks: dfs(dep_id)`
loop, sequentially threading the visited set and stopping at the first cycle;
`next` is the recursive `dfs` at the remaining fuel. -/
def dfsDepsGo (g : TaskDependencyGraph) (next : Nat → List Nat → List Nat → DfsResult) :
    List Nat → List Nat → List Nat → DfsResult
  | [], visited, _ => .ok visited
  | dep_id :: rest, visited, path =>
    if g.containsTask dep_id then
      match next dep_id visited path with
      | .ok v => dfsDepsGo g next rest v path
      | r => r
    else dfsDepsGo g next rest visited path

/-- The inner `dfs(task_id)` of `validate_no_cycles`, fuel-indexed: raise a
cycle if `task_id` is on the active path, return if already visited, else mark
visited, push onto the path and recurse into the dependencies present in the
graph (the path entry is popped on return, which explicit state passing
renders by keeping `path` caller-local). -/
def dfsVisit (g : TaskDependencyGraph) : Nat → Nat → List Nat → List Nat → DfsResult
  | 0, _, _, _ => .noFuel
  | fuel + 1, task_id, visited, path =>
    if task_id ∈ path then .cycle (cycleTitles g path task_id)
    else if task_id ∈ visited then .ok visited
    else
      match g.findTask task_id with
      | none => .ok visited
      | some task =>
        dfsDepsGo g (fun d v p => dfsVisit g fuel d v p)
          task.depends_on (task_id :: visited) (path ++ [task_id])

/-- The outer loop of `validate_no_cycles`: run `dfs` from every not-yet-visited
task id, in graph (insertion) order. -/
def validateGo (g : TaskDependencyGraph) (fuel : Nat) :
    List Nat → List Nat → Except (List String) Bool
  | [], _ => .ok true
  | task_id :: rest, visited =>
    if task_id ∈ visited then validateGo g fuel rest visited
    else
      match dfsVisit g fuel task_id visited [] with
      | .ok v => validateGo g fuel rest v
      | .cycle c => .error c
      | .noFuel => .ok false

/-- Validation `TaskDependencyGraph.validate_no_cycles`: `.ok true` when no cycle is
found, `.error cycle` for the `DependencyCycleError(cycle)` raise. The fuel
`|tasks| + 1` exceeds what the recursion can consume (each productive call
visits a new id), so the `.ok false` branch for `noFuel` is unreachable. -/
def validate_no_cycles (g : TaskDependencyGraph) : Except (List String) Bool :=
  validateGo g (g.tasks.length + 1) (g.tasks.map Prod.fst) []

end TaskDependencyGraph

/- The class `TaskQueue` (src/src/core/task_queue.py) wraps the graph behind an
asyncio lock; each queue operation is a single locked read-modify-write of the
graph, so the queue is embedded as functions on the graph state. -/
namespace TaskQueue

open TaskDependencyGraph

/-- Query `TaskQueue.get_ready_tasks` with the optional `limit` (Python truthiness:
`limit = 0` or `None` means no truncation). -/
def get_ready_tasks (g : TaskDependencyGraph) (limit : Option Nat := none) : List Task :=
  match limit with
  | some n => if n ≠ 0 then (g.get_ready_tasks).take n else g.get_ready_tasks
  | none => g.get_ready_tasks

/-- Transition `TaskQueue.mark_task_started`: mark the task in progress if the id is
present, else do nothing. -/
def mark_task_started (g : TaskDependencyGraph) (task_id agent_id : Nat) :
    TaskDependencyGraph :=
  if g.containsTask task_id then
    ⟨assocUpdate g.tasks task_id fun t => t.mark_in_progress agent_id⟩
  else g

/-- Transition `TaskQueue.mark_task_completed` (delegates to the graph, which ignores
missing ids). -/
def mark_task_completed (g : TaskDependencyGraph) (task_id : Nat) (result : String) :
    TaskDependencyGraph :=
  g.mark_task_completed task_id result

/-- Transition `TaskQueue.mark_task_failed`: if the id is present and
`should_retry and task.retry_count < 3`, reset the task to `pending`, clear the
assigned agent and record the error (the stored `retry_count` is NOT changed —
only the log message mentions `retry_count + 1`) and return `True`; otherwise
mark it permanently failed via the graph and return `False`; on a missing id
return `False` without touching the graph. -/
def mark_task_failed (g : TaskDependencyGraph) (task_id : Nat) (error : String)
    (should_retry : Bool := true) : TaskDependencyGraph × Bool :=
  match g.findTask task_id with
  | some task =>
    if should_retry && task.retry_count < 3 then
      (⟨assocUpdate g.tasks task_id fun t =>
          { t with status := TaskStatus.pending, assigned_agent_id := none,
                   error_message := some error }⟩, true)
    else
      (g.mark_task_failed task_id error, false)
  | none => (g, false)

end TaskQueue

/-- Enum `AgentType` from src/src/models/agent.py. -/
inductive AgentType
  | code_generator
  | documentation
  | analysis
  | testing
deriving DecidableEq, Repr

/-- Enum `AgentStatus` from src/src/models/agent.py. -/
inductive AgentStatus
  | idle
  | busy
  | error
  | shutdown
deriving DecidableEq, Repr

/-- Model `AgentCapability` (src/src/models/agent.py). -/
structure AgentCapability where
  task_types : List TaskType
  max_concurrent_tasks : Nat := 1
  specializations : List String := []
deriving DecidableEq, Repr

/-- Model `AgentMetrics` (src/src/models/agent.py); the float fields are
embedded as rationals. -/
structure AgentMetrics where
  tasks_completed : Nat := 0
  tasks_failed : Nat := 0
  total_tokens_used : Nat := 0
  total_execution_time : ℚ := 0
  average_task_duration : ℚ := 0
deriving DecidableEq, Repr

/-- Update `AgentMetrics.update_on_success`. -/
def AgentMetrics.update_on_success (m : AgentMetrics) (duration : ℚ) (tokens : Nat) :
    AgentMetrics :=
  let m1 := { m with
    tasks_completed := m.tasks_completed + 1,
    total_tokens_used := m.total_tokens_used + tokens,
    total_execution_time := m.total_execution_time + duration }
  if m1.tasks_completed > 0 then
    { m1 with average_task_duration := m1.total_execution_time / m1.tasks_completed }
  else m1

/-- Update `AgentMetrics.update_on_failure`. -/
def AgentMetrics.update_on_failure (m : AgentMetrics) : AgentMetrics :=
  { m with tasks_failed := m.tasks_failed + 1 }

/-- Model `Agent` (src/src/models/agent.py); the `created_at`/`last_activity`
wall-clock timestamps are irrelevant to every claim and are not carried. -/
structure Agent where
  id : Nat
  type : AgentType
  status : AgentStatus := .idle
  capabilities : AgentCapability
  current_task_id : Option Nat := none
  task_queue : List Nat := []
  metrics : AgentMetrics := {}
deriving DecidableEq, Repr

/-- Capability check `Agent.can_handle_task`. -/
def Agent.can_handle_task (a : Agent) (task_type : TaskType) : Bool :=
  decide (task_type ∈ a.capabilities.task_types)

/-- Availability check `Agent.is_available`: idle and queue below capacity. -/
def Agent.is_available (a : Agent) : Bool :=
  a.status = AgentStatus.idle &&
    a.task_queue.length < a.capabilities.max_concurrent_tasks

/-- Transition `Agent.assign_task`. -/
def Agent.assign_task (a : Agent) (task_id : Nat) : Agent :=
  let a1 := { a with task_queue := a.task_queue ++ [task_id] }
  let a2 :=
    if a1.current_task_id.isNone then
      { a1 with current_task_id := some task_id, status := AgentStatus.busy }
    else a1
  a2

/-- Transition `Agent.complete_current_task`: drop the current id from the
queue (Python `list.remove` drops the first occurrence), then promote the head
of the queue or fall back to idle. -/
def Agent.complete_current_task (a : Agent) : Agent :=
  let a1 :=
    match a.current_task_id with
    | some tid => if tid ∈ a.task_queue then { a with task_queue := a.task_queue.erase tid } else a
    | none => a
  match a1.task_queue with
  | next :: _ => { a1 with current_task_id := some next, status := AgentStatus.busy }
  | [] => { a1 with current_task_id := none, status := AgentStatus.idle }

namespace AgentPool

/-- Python selection key used by `AgentPool.get_agent_for_task`:
`(avg duration if any task completed else 0.0, len(task_queue))`. -/
def selectionKey (a : Agent) : ℚ × Nat :=
  (if a.metrics.tasks_completed > 0 then a.metrics.average_task_duration else 0,
   a.task_queue.length)

/-- Strict lexicographic comparison of selection keys (Python tuple `<`). -/
def selKeyLt (x y : ℚ × Nat) : Bool :=
  decide (x.1 < y.1) || (decide (x.1 = y.1) && decide (x.2 < y.2))

/-- Python `min(xs, key=...)`: the first element with minimal key (later
elements replace the running best only when strictly smaller). -/
def minByKey (a : Agent) (rest : List Agent) : Agent :=
  rest.foldl (fun best x => if selKeyLt (selectionKey x) (selectionKey best) then x else best) a

/-- Selection `AgentPool.get_agent_for_task`: among agents that can handle the
task's type and are available, the minimum under `selectionKey` (first such on
ties); `none` when no agent qualifies. The pool's dict of agents is embedded
as its insertion-ordered value list. -/
def get_agent_for_task (agents : List Agent) (task : Task) : Option Agent :=
  let capable_agents := agents.filter fun a => a.can_handle_task task.type && a.is_available
  match capable_agents with
  | [] => none
  | a :: rest => some (minByKey a rest)

end AgentPool

/-- Enum `ResultStatus` from src/src/models/result.py; `partial_success`
renders the member whose Python value is the string with that first word,
which is a reserved word in Lean. -/
inductive ResultStatus
  | success
  | partial_success
  | failed
deriving DecidableEq, Repr

/-- Model `TaskResult` (src/src/models/result.py); fields relevant to the
claims (artifacts are carried as opaque names, timestamps dropped). -/
structure TaskResult where
  task_id : Nat
  status : ResultStatus
  artifacts : List String := []
  duration_seconds : ℚ := 0
  input_tokens : Nat := 0
  output_tokens : Nat := 0
  total_tokens : Nat := 0
  agent_id : Nat
  agent_type : AgentType
  error_message : Option String := none
  retry_count : Nat := 0
deriving DecidableEq, Repr

/-- Outcome of the body of the `try` block in `BaseAgent.execute_task`
(message building, rate-limit acquisition, the remote call and artifact
extraction): either the artifact list with the usage token counts, or the
exception text caught by the blanket `except Exception` handler. -/
def ExecBody := Except String (List String × Nat × Nat)

/-- Execution wrapper `BaseAgent.execute_task` (src/src/agents/base_agent.py):
marks the agent busy, runs the body, and on success updates metrics and builds
a success result while on any exception updates failure metrics and builds a
failed result carrying the stringified error; both paths finish with the agent
reset to idle via `complete_current_task`. `duration` stands for the elapsed
wall-clock seconds. -/
def BaseAgent.execute_task (agent : Agent) (task : Task) (body : ExecBody)
    (duration : ℚ) : Agent × TaskResult :=
  let agent1 := { agent with status := AgentStatus.busy, current_task_id := some task.id }
  match body with
  | .ok (artifacts, input_tokens, output_tokens) =>
    let agent2 := { agent1 with
      metrics := agent1.metrics.update_on_success duration (input_tokens + output_tokens) }
    let agent3 := ({ agent2 with status := AgentStatus.idle } : Agent).complete_current_task
    (agent3,
      { task_id := task.id
        status := ResultStatus.success
        artifacts := artifacts
        duration_seconds := duration
        input_tokens := input_tokens
        output_tokens := output_tokens
        total_tokens := input_tokens + output_tokens
        agent_id := agent.id
        agent_type := agent.type })
  | .error e =>
    let agent2 := { agent1 with
      metrics := agent1.metrics.update_on_failure, status := AgentStatus.error }
    let result : TaskResult :=
      { task_id := task.id
        status := ResultStatus.failed
        artifacts := []
        duration_seconds := duration
        agent_id := agent.id
        agent_type := agent.type
        error_message := some e
        retry_count := task.retry_count }
    let agent3 := ({ agent2 with status := AgentStatus.idle } : Agent).complete_current_task
    (agent3, result)

/-- In-flight bookkeeping of the orchestrator (src/src/core/orchestrator.py):
the `processing_task_ids` and `processing_agent_ids` sets, embedded as
duplicate-free id lists. -/
structure OrchProcessing where
  processing_task_ids : List Nat := []
  processing_agent_ids : List Nat := []
deriving DecidableEq, Repr

/-- Wrapper `Orchestrator._execute_task_safe`: runs `_execute_task` inside
`try/except Exception/finally`; whatever the inner call did to the processing
sets (`inner` is the state it left behind) and whether or not it raised
(`raised` carries the caught exception text), the `finally` block discards
both ids. -/
def Orchestrator.execute_task_safe (task_id agent_id : Nat)
    (inner : OrchProcessing) (raised : Option String) : OrchProcessing :=
  let _ := raised
  { inner with
    processing_task_ids := inner.processing_task_ids.filter fun x => x ≠ task_id,
    processing_agent_ids := inner.processing_agent_ids.filter fun x => x ≠ agent_id }

/-- State `RateLimiterState` (src/src/services/rate_limiter.py): two token
buckets with their last-refill timestamps, the configured capacities, and the
free slots of the concurrency semaphore. Floats and timestamps are embedded as
rationals. -/
structure RateLimiterState where
  max_requests_per_minute : ℚ
  request_tokens : ℚ
  last_request_refill : ℚ
  max_tokens_per_minute : ℚ
  token_tokens : ℚ
  last_token_refill : ℚ
  sem : Nat
deriving DecidableEq, Repr

namespace RateLimiter

/-- Refill step `RateLimiter._refill_request_tokens`: full refill after 60s,
otherwise linear partial refill capped at capacity; the timestamp advances
whenever a positive amount was added. -/
def refill_request_tokens (now : ℚ) (s : RateLimiterState) : RateLimiterState :=
  let elapsed := now - s.last_request_refill
  if elapsed ≥ 60 then
    { s with request_tokens := s.max_requests_per_minute, last_request_refill := now }
  else
    let refill_amount := elapsed / 60 * s.max_requests_per_minute
    { s with
      request_tokens := min (s.request_tokens + refill_amount) s.max_requests_per_minute,
      last_request_refill := if refill_amount > 0 then now else s.last_request_refill }

/-- Refill step `RateLimiter._refill_token_tokens` (same shape for the volume
bucket). -/
def refill_token_tokens (now : ℚ) (s : RateLimiterState) : RateLimiterState :=
  let elapsed := now - s.last_token_refill
  if elapsed ≥ 60 then
    { s with token_tokens := s.max_tokens_per_minute, last_token_refill := now }
  else
    let refill_amount := elapsed / 60 * s.max_tokens_per_minute
    { s with
      token_tokens := min (s.token_tokens + refill_amount) s.max_tokens_per_minute,
      last_token_refill := if refill_amount > 0 then now else s.last_token_refill }

/-- Both refills, in the order the loop body of `acquire` performs them. -/
def refillBoth (now : ℚ) (s : RateLimiterState) : RateLimiterState :=
  refill_token_tokens now (refill_request_tokens now s)

/-- One iteration of the `while True` loop body of `RateLimiter.acquire` at
time `now` (the source's repeated `time.time()` reads within one iteration are
a single instant here): refill both buckets, compute `wait_time`, and either
debit both buckets (`none`: the loop breaks) or report the sleep duration
(`some wait_time`). -/
def acquireStep (now estimated_tokens : ℚ) (s : RateLimiterState) :
    RateLimiterState × Option ℚ :=
  let s1 := refillBoth now s
  let wait_time : ℚ := 0
  let wait_time :=
    if s1.request_tokens < 1 then max wait_time (60 - (now - s1.last_request_refill))
    else wait_time
  let wait_time :=
    if s1.token_tokens < estimated_tokens then
      let token_wait := 60 - (now - s1.last_token_refill)
      if token_wait > wait_time then token_wait else wait_time
    else wait_time
  if wait_time ≤ 0 then
    ({ s1 with
        request_tokens := s1.request_tokens - 1,
        token_tokens := s1.token_tokens - estimated_tokens }, none)
  else (s1, some wait_time)

/-- Loop `RateLimiter.acquire` over a virtual clock: sleeping for `w` advances
`now` by `w`; after the loop breaks, a concurrency-semaphore slot is taken
(the embedding assumes a free slot, as a `sem = 0` acquire suspends until a
`release`). Returns the final state and the total time slept, or `none` if the
fuel is insufficient. -/
def acquire (fuel : Nat) (now estimated_tokens : ℚ) (s : RateLimiterState) :
    Option (RateLimiterState × ℚ) :=
  match fuel with
  | 0 => none
  | fuel' + 1 =>
    match acquireStep now estimated_tokens s with
    | (s1, none) => some ({ s1 with sem := s1.sem - 1 }, 0)
    | (s1, some w) =>
      (acquire fuel' (now + w) estimated_tokens s1).map fun r => (r.1, w + r.2)

/-- Release `RateLimiter.release`: frees only the concurrency slot. -/
def release (s : RateLimiterState) : RateLimiterState :=
  { s with sem := s.sem + 1 }

end RateLimiter

/-- Acyclicity of the dependency graph, stated as the standard existence of a
topological ranking: along every `depends_on` edge between tasks present in
the graph, the rank strictly drops. -/
def Ranked (g : TaskDependencyGraph) (rank : Nat → Nat) : Prop :=
  ∀ p ∈ g.tasks, ∀ d ∈ p.2.depends_on, g.containsTask d = true → rank d < rank p.1

instance (g : TaskDependencyGraph) (rank : Nat → Nat) : Decidable (Ranked g rank) :=
  inferInstanceAs (Decidable (∀ p ∈ g.tasks, ∀ d ∈ p.2.depends_on,
    g.containsTask d = true → rank d < rank p.1))

/-- Number of graph keys not yet visited; the DFS recursion depth is bounded
by it, which is what makes the fuel `|tasks| + 1` of `validate_no_cycles`
sufficient. -/
def unvisitedCount (g : TaskDependencyGraph) (visited : List Nat) : Nat :=
  ((g.tasks.map Prod.fst).filter fun k => decide (k ∉ visited)).length

/-- Three-task graph whose `depends_on` edges form the cycle A→B→C→A. -/
def triangleGraph (tA tB tC : String) : TaskDependencyGraph :=
  ⟨[(1, { id := 1, title := tA, depends_on := [2] }),
    (2, { id := 2, title := tB, depends_on := [3] }),
    (3, { id := 3, title := tC, depends_on := [1] })]⟩

end Swarm

namespace Swarm

open TaskDependencyGraph

/-! Helper lemmas about the association-list dict operations and the stable
sort used by `get_ready_tasks`. -/

lemma mem_sortedInsertTask {a t : Task} {l : List Task} :
    t ∈ sortedInsertTask a l ↔ t = a ∨ t ∈ l := by
  induction l with
  | nil => simp [sortedInsertTask]
  | cons b l ih =>
    by_cases h : taskKeyLe a b
    · simp [sortedInsertTask, h]
    · simp [sortedInsertTask, h, ih]
      tauto

lemma mem_sortTasks {t : Task} {l : List Task} : t ∈ sortTasks l ↔ t ∈ l := by
  induction l with
  | nil => simp [sortTasks]
  | cons b l ih =>
    simp [sortTasks, mem_sortedInsertTask, ih]

lemma is_ready_iff {t : Task} {comp : List Nat} :
    t.is_ready comp = true ↔
      t.status = TaskStatus.pending ∧ ∀ d ∈ t.depends_on, d ∈ comp := by
  by_cases h : t.status = TaskStatus.pending
  · simp [Task.is_ready, h]
  · simp [Task.is_ready, h]

lemma mem_completedIds {g : TaskDependencyGraph} {d : Nat} :
    d ∈ g.completedIds ↔ ∃ t, (d, t) ∈ g.tasks ∧ t.status = TaskStatus.completed := by
  unfold TaskDependencyGraph.completedIds
  constructor
  · intro h
    rcases List.mem_map.mp h with ⟨p, hp, hfst⟩
    rcases List.mem_filter.mp hp with ⟨hmem, hst⟩
    exact ⟨p.2, by simpa [← hfst] using hmem, by simpa using hst⟩
  · rintro ⟨t, hmem, hst⟩
    exact List.mem_map.mpr ⟨(d, t), List.mem_filter.mpr ⟨hmem, by simpa using hst⟩, rfl⟩

lemma mem_of_findTask_eq_some {g : TaskDependencyGraph} {k : Nat} {t : Task}
    (h : g.findTask k = some t) : (k, t) ∈ g.tasks := by
  unfold TaskDependencyGraph.findTask at h
  rcases Option.map_eq_some'.mp h with ⟨p, hfind, hsnd⟩
  have hmem := List.mem_of_find?_eq_some hfind
  have hkey : p.1 = k := by simpa using List.find?_some hfind
  have : p = (k, t) := by
    cases p
    simp only [Prod.mk.injEq]
    exact ⟨hkey, hsnd⟩
  rwa [this] at hmem

lemma findTask_eq_some_of_mem {g : TaskDependencyGraph} {k : Nat} {t : Task}
    (hnd : (g.tasks.map Prod.fst).Nodup) (h : (k, t) ∈ g.tasks) :
    g.findTask k = some t := by
  unfold TaskDependencyGraph.findTask
  obtain ⟨l⟩ := g
  induction l with
  | nil => simp at h
  | cons p rest ih =>
    rcases List.mem_cons.mp h with hp | hrest
    · subst hp
      simp [List.find?]
    · have hk : p.1 ≠ k := by
        intro hk
        have : k ∈ rest.map Prod.fst := List.mem_map.mpr ⟨(k, t), hrest, rfl⟩
        rw [List.map_cons, List.nodup_cons] at hnd
        exact hnd.1 (hk ▸ this)
      rw [List.map_cons, List.nodup_cons] at hnd
      simpa [List.find?, hk] using ih hnd.2 hrest

lemma containsTask_iff {g : TaskDependencyGraph} {k : Nat} :
    g.containsTask k = true ↔ ∃ t, g.findTask k = some t := by
  unfold TaskDependencyGraph.containsTask
  cases h : g.findTask k <;> simp [h]

lemma findTask_assocUpdate_self {l : List (Nat × Task)} {k : Nat} {f : Task → Task} :
    (TaskDependencyGraph.mk (assocUpdate l k f)).findTask k
      = ((TaskDependencyGraph.mk l).findTask k).map f := by
  unfold TaskDependencyGraph.findTask
  induction l with
  | nil => simp [assocUpdate]
  | cons p rest ih =>
    by_cases h : p.1 = k
    · simp [assocUpdate, h, List.find?]
    · simpa [assocUpdate, h, List.find?] using ih

lemma findTask_assocUpdate_ne {l : List (Nat × Task)} {k k' : Nat} {f : Task → Task}
    (h : k' ≠ k) :
    (TaskDependencyGraph.mk (assocUpdate l k f)).findTask k'
      = (TaskDependencyGraph.mk l).findTask k' := by
  have hkk : ¬ (k = k') := fun hh => h hh.symm
  unfold TaskDependencyGraph.findTask
  induction l with
  | nil => simp [assocUpdate]
  | cons p rest ih =>
    by_cases hp : p.1 = k
    · simp [assocUpdate, hp, List.find?, hkk]
    · by_cases hp' : p.1 = k'
      · simp [assocUpdate, hp, List.find?, hp', h]
      · simpa [assocUpdate, hp, List.find?, hp'] using ih

lemma assocUpdate_keys {l : List (Nat × Task)} {k : Nat} {f : Task → Task} :
    (assocUpdate l k f).map Prod.fst = l.map Prod.fst := by
  induction l with
  | nil => simp [assocUpdate]
  | cons p rest ih =>
    by_cases h : p.1 = k
    · simp [assocUpdate, h]
    · simp [assocUpdate, h, ih]

lemma assocUpdate_of_forall_ne {l : List (Nat × Task)} {k : Nat} {f : Task → Task}
    (h : ∀ p ∈ l, p.1 ≠ k) : assocUpdate l k f = l := by
  induction l with
  | nil => simp [assocUpdate]
  | cons p rest ih =>
    have hp := h p (List.mem_cons_self _ _)
    simp [assocUpdate, hp, ih fun q hq => h q (List.mem_cons_of_mem _ hq)]

lemma mem_assocUpdate_of_ne {l : List (Nat × Task)} {k k' : Nat} {t : Task}
    {f : Task → Task} (hmem : (k', t) ∈ l) (h : k' ≠ k) :
    (k', t) ∈ assocUpdate l k f := by
  induction l with
  | nil => simp at hmem
  | cons p rest ih =>
    rcases List.mem_cons.mp hmem with hp | hrest
    · subst hp
      simp [assocUpdate, h]
    · by_cases hpk : p.1 = k
      · obtain ⟨pk, pv⟩ := p
        simp only at hpk
        simp [assocUpdate, hpk]
        exact Or.inr hrest
      · simp [assocUpdate, hpk]
        exact Or.inr (ih hrest)

lemma findTask_eq_none_iff {g : TaskDependencyGraph} {k : Nat} :
    g.findTask k = none ↔ ∀ p ∈ g.tasks, p.1 ≠ k := by
  unfold TaskDependencyGraph.findTask
  simp [List.find?_eq_none]

lemma mem_values_iff {g : TaskDependencyGraph} {t : Task} :
    t ∈ g.values ↔ ∃ k, (k, t) ∈ g.tasks := by
  unfold TaskDependencyGraph.values
  constructor
  · intro h
    rcases List.mem_map.mp h with ⟨p, hp, hsnd⟩
    exact ⟨p.1, by rwa [show (p.1, t) = p from by cases p; simp_all]⟩
  · rintro ⟨k, hk⟩
    exact List.mem_map.mpr ⟨(k, t), hk, rfl⟩

lemma mem_get_ready_tasks_iff {g : TaskDependencyGraph} {t : Task} :
    t ∈ g.get_ready_tasks ↔ t ∈ g.values ∧ t.is_ready g.completedIds = true := by
  unfold TaskDependencyGraph.get_ready_tasks
  simp [mem_sortTasks, List.mem_filter]

lemma findTask_assocSet_self {l : List (Nat × Task)} {k : Nat} {v : Task} :
    (TaskDependencyGraph.mk (assocSet l k v)).findTask k = some v := by
  unfold TaskDependencyGraph.findTask
  induction l with
  | nil => simp [assocSet, List.find?]
  | cons p rest ih =>
    by_cases hp : p.1 = k
    · simp [assocSet, hp, List.find?]
    · simpa [assocSet, hp, List.find?] using ih

lemma findTask_foldl_assocUpdate {ds : List Nat} {acc : List (Nat × Task)} {k : Nat}
    {f : Task → Task} (h : k ∉ ds) :
    (TaskDependencyGraph.mk (ds.foldl (fun a d => assocUpdate a d f) acc)).findTask k
      = (TaskDependencyGraph.mk acc).findTask k := by
  induction ds generalizing acc with
  | nil => rfl
  | cons d rest ih =>
    have hk : k ≠ d := fun hh => h (hh ▸ List.mem_cons_self _ _)
    have hrest : k ∉ rest := fun hh => h (List.mem_cons_of_mem _ hh)
    rw [List.foldl_cons]
    rw [ih hrest]
    exact findTask_assocUpdate_ne hk

/-- Claim C5, amended part: a task in a terminal state (`completed` or
`failed`) is never `pending`, so it never appears in `get_ready_tasks()` and
is never re-dispatched by the scheduler loop — even though the queue mutators
themselves do not guard terminal states (see the counterexample). -/
theorem terminal_task_never_ready (g : TaskDependencyGraph) (t : Task)
    (h : t.status = TaskStatus.completed ∨ t.status = TaskStatus.failed) :
    t ∉ g.get_ready_tasks := by
  intro hmem
  rcases mem_get_ready_tasks_iff.mp hmem with ⟨_, hready⟩
  rcases is_ready_iff.mp hready with ⟨hpend, _⟩
  rcases h with h | h <;> rw [h] at hpend <;> cases hpend

/-- Witness for `terminal_task_never_ready` at a concrete completed task. -/
theorem terminal_task_never_ready_witness :
    (({ id := 1, status := TaskStatus.completed } : Task).status = TaskStatus.completed
      ∨ ({ id := 1, status := TaskStatus.completed } : Task).status = TaskStatus.failed)
    ∧ ({ id := 1, status := TaskStatus.completed } : Task)
        ∉ (TaskDependencyGraph.mk [(1, { id := 1, status := TaskStatus.completed })]).get_ready_tasks :=
  ⟨Or.inl rfl,
   terminal_task_never_ready (TaskDependencyGraph.mk
     [(1, { id := 1, status := TaskStatus.completed })])
     { id := 1, status := TaskStatus.completed } (Or.inl rfl)⟩

/-- Counterexample to claim C5 as stated: `TaskQueue.mark_task_failed` applied
to a task already in the terminal state `completed` (retry budget untouched)
resets its status to `pending` — an operation of the task queue does change
the status of a task in a terminal state. -/
theorem c5_terminal_state_left_counterexample :
    (((TaskQueue.mark_task_failed
        (TaskDependencyGraph.mk [(1, { id := 1, status := TaskStatus.completed })])
        1 "boom").1.findTask 1).map Task.status = some TaskStatus.pending)
    ∧ (((TaskDependencyGraph.mk
        [(1, { id := 1, status := TaskStatus.completed })]).findTask 1).map Task.status
          = some TaskStatus.completed) := by
  constructor
  · rfl
  · rfl

/-- Counterexample to claim C8 as stated: adding a task whose id already
exists raises no error and is not a no-op — `add_task` silently overwrites the
stored task (there is no `DuplicateTaskError` anywhere in the code). -/
theorem c8_add_task_duplicate_counterexample :
    ((TaskDependencyGraph.mk [(1, { id := 1, title := "old" })]).add_task
        { id := 1, title := "new" }).findTask 1 = some { id := 1, title := "new" }
    ∧ ({ id := 1, title := "new" } : Task) ≠ { id := 1, title := "old" } := by
  constructor
  · rfl
  · decide

/-- Claim C8, amended: `add_task` on an id already present silently overwrites
the stored task — afterwards the graph maps the task's id to the new task
(stated for tasks not depending on themselves; a self-dependency would
additionally append the id to the task's own `blocks` list). -/
theorem add_task_overwrites (g : TaskDependencyGraph) (t : Task)
    (h : t.id ∉ t.depends_on) : (g.add_task t).findTask t.id = some t := by
  unfold TaskDependencyGraph.add_task
  rw [findTask_foldl_assocUpdate h]
  exact findTask_assocSet_self

/-- Witness for `add_task_overwrites`: overwriting a present id. -/
theorem add_task_overwrites_witness :
    (({ id := 1, title := "new" } : Task).id ∉ ({ id := 1, title := "new" } : Task).depends_on)
    ∧ ((TaskDependencyGraph.mk [(1, { id := 1, title := "old" })]).add_task
        { id := 1, title := "new" }).findTask 1 = some { id := 1, title := "new" } :=
  ⟨by decide,
   add_task_overwrites (TaskDependencyGraph.mk [(1, { id := 1, title := "old" })])
     { id := 1, title := "new" } (by decide)⟩

/-- Claim C10: on a task id not present in the graph, the queue mutators
`mark_task_started`, `mark_task_completed` and `mark_task_failed` raise no
error and leave the graph unchanged, and `mark_task_failed` returns `False`. -/
theorem queue_missing_id_mutators_noop (g : TaskDependencyGraph)
    (task_id agent_id : Nat) (result error : String) (should_retry : Bool)
    (h : g.containsTask task_id = false) :
    TaskQueue.mark_task_started g task_id agent_id = g
    ∧ TaskQueue.mark_task_completed g task_id result = g
    ∧ TaskQueue.mark_task_failed g task_id error should_retry = (g, false) := by
  have hfind : g.findTask task_id = none := by
    cases hf : g.findTask task_id with
    | none => rfl
    | some t =>
      exfalso
      unfold TaskDependencyGraph.containsTask at h
      rw [hf] at h
      cases h
  have hforall : ∀ p ∈ g.tasks, p.1 ≠ task_id := findTask_eq_none_iff.mp hfind
  refine ⟨?_, ?_, ?_⟩
  · unfold TaskQueue.mark_task_started
    simp [h]
  · unfold TaskQueue.mark_task_completed TaskDependencyGraph.mark_task_completed
    rw [assocUpdate_of_forall_ne hforall]
  · unfold TaskQueue.mark_task_failed
    rw [hfind]

/-- Witness for `queue_missing_id_mutators_noop` at a concrete graph and a
missing id. -/
theorem queue_missing_id_mutators_noop_witness :
    ((TaskDependencyGraph.mk [(1, { id := 1 })]).containsTask 5 = false)
    ∧ (TaskQueue.mark_task_started (TaskDependencyGraph.mk [(1, { id := 1 })]) 5 9
        = TaskDependencyGraph.mk [(1, { id := 1 })]
      ∧ TaskQueue.mark_task_completed (TaskDependencyGraph.mk [(1, { id := 1 })]) 5 "r"
        = TaskDependencyGraph.mk [(1, { id := 1 })]
      ∧ TaskQueue.mark_task_failed (TaskDependencyGraph.mk [(1, { id := 1 })]) 5 "e" true
        = (TaskDependencyGraph.mk [(1, { id := 1 })], false)) :=
  ⟨by decide,
   queue_missing_id_mutators_noop (TaskDependencyGraph.mk [(1, { id := 1 })])
     5 9 "r" "e" true (by decide)⟩

/-- Claim C2, code behaviour at the failing input: a pending task that fails
four consecutive times via `TaskQueue.mark_task_failed` is reset to `pending`
every time (each call returns `True`), its `retry_count` stays `0` — the retry
path never increments it — and after the fourth failure the task still appears
in `get_ready_tasks()`; the claimed permanent `failed` state with
`retry_count == 3` is never reached. -/
theorem c2_retry_count_never_incremented :
    (TaskQueue.mark_task_failed
      (TaskDependencyGraph.mk [(1, { id := 1 })]) 1 "e1").2 = true
    ∧ ((TaskQueue.mark_task_failed
        ((TaskQueue.mark_task_failed
          ((TaskQueue.mark_task_failed
            ((TaskQueue.mark_task_failed
              (TaskDependencyGraph.mk [(1, { id := 1 })]) 1 "e1").1) 1 "e2").1) 1 "e3").1)
        1 "e4").2 = true
      ∧ (((TaskQueue.mark_task_failed
        ((TaskQueue.mark_task_failed
          ((TaskQueue.mark_task_failed
            ((TaskQueue.mark_task_failed
              (TaskDependencyGraph.mk [(1, { id := 1 })]) 1 "e1").1) 1 "e2").1) 1 "e3").1)
        1 "e4").1.findTask 1).map Task.status = some TaskStatus.pending)
      ∧ (((TaskQueue.mark_task_failed
        ((TaskQueue.mark_task_failed
          ((TaskQueue.mark_task_failed
            ((TaskQueue.mark_task_failed
              (TaskDependencyGraph.mk [(1, { id := 1 })]) 1 "e1").1) 1 "e2").1) 1 "e3").1)
        1 "e4").1.findTask 1).map Task.retry_count = some 0)
      ∧ (((TaskQueue.mark_task_failed
        ((TaskQueue.mark_task_failed
          ((TaskQueue.mark_task_failed
            ((TaskQueue.mark_task_failed
              (TaskDependencyGraph.mk [(1, { id := 1 })]) 1 "e1").1) 1 "e2").1) 1 "e3").1)
        1 "e4").1.get_ready_tasks).map Task.id = [1])) := by
  refine ⟨rfl, rfl, rfl, rfl, ?_⟩
  decide

/-- Claim C3, code behaviour at the failing input: two ready tasks of equal
priority, one of complexity `small` (title "S") and one `large` (title "L"),
come back ordered `["L", "S"]` — the sort compares the complexity enum's
string values, and `"large" < "medium" < "small"` lexicographically, so
`large` sorts FIRST, not last. The priority part of the sort does hold: ready
tasks with priorities low/critical/high come back `[critical, high, low]`. -/
theorem c3_complexity_tiebreak_reversed :
    ((TaskDependencyGraph.mk
        [(1, { id := 1, title := "S", complexity := TaskComplexity.small }),
         (2, { id := 2, title := "L", complexity := TaskComplexity.large })]).get_ready_tasks).map
      Task.title = ["L", "S"]
    ∧ ((TaskDependencyGraph.mk
        [(1, { id := 1, title := "low", priority := TaskPriority.low }),
         (2, { id := 2, title := "critical", priority := TaskPriority.critical }),
         (3, { id := 3, title := "high", priority := TaskPriority.high })]).get_ready_tasks).map
      Task.title = ["critical", "high", "low"] := by
  constructor
  · rfl
  · rfl

lemma ready_iff_aux (g : TaskDependencyGraph) (hnd : (g.tasks.map Prod.fst).Nodup)
    (t : Task) :
    t ∈ g.get_ready_tasks ↔
      t ∈ g.values ∧ t.status = TaskStatus.pending ∧
        ∀ d ∈ t.depends_on,
          ∃ td, g.findTask d = some td ∧ td.status = TaskStatus.completed := by
  have hcomp : ∀ d : Nat, d ∈ g.completedIds ↔
      ∃ td, g.findTask d = some td ∧ td.status = TaskStatus.completed := by
    intro d
    rw [mem_completedIds]
    constructor
    · rintro ⟨t', hmem, hst⟩
      exact ⟨t', findTask_eq_some_of_mem hnd hmem, hst⟩
    · rintro ⟨td, hf, hst⟩
      exact ⟨td, mem_of_findTask_eq_some hf, hst⟩
  rw [mem_get_ready_tasks_iff, is_ready_iff]
  simp only [hcomp, and_assoc]

/-- Claim C1: a task appears in `get_ready_tasks()` iff it is in the graph,
its status is `pending`, and every id in its `depends_on` list refers to a
task in the graph whose status is `completed`; and marking the last
uncompleted dependency of a pending task completed moves that task from
not-ready to ready on the next query. -/
theorem get_ready_tasks_ready_iff :
    (∀ (g : TaskDependencyGraph), (g.tasks.map Prod.fst).Nodup → ∀ t : Task,
      (t ∈ g.get_ready_tasks ↔
        t ∈ g.values ∧ t.status = TaskStatus.pending ∧
          ∀ d ∈ t.depends_on,
            ∃ td, g.findTask d = some td ∧ td.status = TaskStatus.completed))
    ∧ (∀ (g : TaskDependencyGraph), (g.tasks.map Prod.fst).Nodup →
        ∀ (t : Task) (x : Nat) (result : String),
        g.findTask t.id = some t → t.status = TaskStatus.pending →
        x ∈ t.depends_on → x ≠ t.id →
        (g.findTask x).map Task.status ≠ some TaskStatus.completed →
        g.containsTask x = true →
        (∀ d ∈ t.depends_on, d ≠ x →
          ∃ td, g.findTask d = some td ∧ td.status = TaskStatus.completed) →
        t ∉ g.get_ready_tasks
          ∧ t ∈ (g.mark_task_completed x result).get_ready_tasks) := by
  refine ⟨ready_iff_aux, ?_⟩
  intro g hnd t x result hft hpend hxdep hxne hxnotdone hxcont halldone
  constructor
  · intro hmem
    rcases (ready_iff_aux g hnd t).mp hmem with ⟨_, _, hdeps⟩
    rcases hdeps x hxdep with ⟨td, hfx, hst⟩
    exact hxnotdone (by rw [hfx]; simp [hst])
  · have hnd' : (((g.mark_task_completed x result).tasks.map Prod.fst)).Nodup := by
      show ((assocUpdate g.tasks x _).map Prod.fst).Nodup
      rw [assocUpdate_keys]
      exact hnd
    refine (ready_iff_aux _ hnd' t).mpr ⟨?_, hpend, ?_⟩
    · have hmem : (t.id, t) ∈ g.tasks := mem_of_findTask_eq_some hft
      have hmem' : (t.id, t) ∈ assocUpdate g.tasks x fun u => u.mark_completed result :=
        mem_assocUpdate_of_ne hmem fun hh => hxne hh.symm
      exact mem_values_iff.mpr ⟨t.id, hmem'⟩
    · intro d hd
      by_cases hdx : d = x
      · subst hdx
        rcases containsTask_iff.mp hxcont with ⟨tx, hfx⟩
        refine ⟨tx.mark_completed result, ?_, rfl⟩
        show (TaskDependencyGraph.mk (assocUpdate g.tasks d _)).findTask d = _
        rw [findTask_assocUpdate_self]
        obtain ⟨l⟩ := g
        rw [hfx]
        rfl
      · rcases halldone d hd hdx with ⟨td, hfd, hst⟩
        refine ⟨td, ?_, hst⟩
        show (TaskDependencyGraph.mk (assocUpdate g.tasks x _)).findTask d = _
        rw [findTask_assocUpdate_ne hdx]
        obtain ⟨l⟩ := g
        exact hfd

/-- Witness for `get_ready_tasks_ready_iff`: in a graph with task 2 pending on
dependencies 1 (completed) and 3 (pending), completing 3 moves task 2 from
not-ready to ready. -/
theorem get_ready_tasks_ready_iff_witness :
    ((TaskDependencyGraph.mk
        [(1, { id := 1, status := TaskStatus.completed }),
         (2, { id := 2, depends_on := [1, 3] }),
         (3, { id := 3 })]).tasks.map Prod.fst).Nodup
    ∧ (({ id := 2, depends_on := [1, 3] } : Task)
        ∉ (TaskDependencyGraph.mk
            [(1, { id := 1, status := TaskStatus.completed }),
             (2, { id := 2, depends_on := [1, 3] }),
             (3, { id := 3 })]).get_ready_tasks
      ∧ ({ id := 2, depends_on := [1, 3] } : Task)
        ∈ ((TaskDependencyGraph.mk
            [(1, { id := 1, status := TaskStatus.completed }),
             (2, { id := 2, depends_on := [1, 3] }),
             (3, { id := 3 })]).mark_task_completed 3 "done").get_ready_tasks) :=
  ⟨by decide,
   get_ready_tasks_ready_iff.2
     (TaskDependencyGraph.mk
       [(1, { id := 1, status := TaskStatus.completed }),
        (2, { id := 2, depends_on := [1, 3] }),
        (3, { id := 3 })])
     (by decide)
     { id := 2, depends_on := [1, 3] } 3 "done"
     (by decide) (by decide) (by decide) (by decide) (by decide) (by decide)
     (by decide)⟩

lemma selKeyLt_iff {x y : ℚ × Nat} :
    AgentPool.selKeyLt x y = true ↔ x.1 < y.1 ∨ (x.1 = y.1 ∧ x.2 < y.2) := by
  simp [AgentPool.selKeyLt]

lemma selKeyLt_trans {x y z : ℚ × Nat}
    (h1 : AgentPool.selKeyLt x y = true) (h2 : AgentPool.selKeyLt y z = true) :
    AgentPool.selKeyLt x z = true := by
  rw [selKeyLt_iff] at h1 h2 ⊢
  rcases h1 with h1 | ⟨h1e, h1n⟩ <;> rcases h2 with h2 | ⟨h2e, h2n⟩
  · exact Or.inl (lt_trans h1 h2)
  · exact Or.inl (h2e ▸ h1)
  · exact Or.inl (h1e ▸ h2)
  · exact Or.inr ⟨h1e.trans h2e, lt_trans h1n h2n⟩

lemma selKeyLt_of_not_lt_of_lt {x y z : ℚ × Nat}
    (h1 : AgentPool.selKeyLt x y = false) (h2 : AgentPool.selKeyLt x z = true) :
    AgentPool.selKeyLt y z = true := by
  have h1' : ¬ (x.1 < y.1 ∨ (x.1 = y.1 ∧ x.2 < y.2)) := by
    rw [← selKeyLt_iff]
    simp [h1]
  push_neg at h1'
  rw [selKeyLt_iff] at h2 ⊢
  rcases h2 with h2 | ⟨h2e, h2n⟩
  · exact Or.inl (lt_of_le_of_lt h1'.1 h2)
  · rcases lt_or_eq_of_le h1'.1 with hlt | heq
    · exact Or.inl (h2e ▸ hlt)
    · exact Or.inr ⟨heq.trans h2e, lt_of_le_of_lt (h1'.2 heq.symm) h2n⟩

lemma minByKey_spec (a : Agent) (rest : List Agent) :
    AgentPool.minByKey a rest ∈ a :: rest ∧
      ∀ b ∈ a :: rest,
        AgentPool.selKeyLt (AgentPool.selectionKey b)
          (AgentPool.selectionKey (AgentPool.minByKey a rest)) = false := by
  induction rest generalizing a with
  | nil =>
    refine ⟨List.mem_cons_self _ _, ?_⟩
    intro b hb
    rcases List.mem_cons.mp hb with hb | hb
    · subst hb
      simp [AgentPool.minByKey, AgentPool.selKeyLt]
    · simp at hb
  | cons x rest ih =>
    have hunfold : AgentPool.minByKey a (x :: rest)
        = AgentPool.minByKey
            (if AgentPool.selKeyLt (AgentPool.selectionKey x) (AgentPool.selectionKey a)
              then x else a) rest := by
      simp [AgentPool.minByKey]
    by_cases hxa :
        AgentPool.selKeyLt (AgentPool.selectionKey x) (AgentPool.selectionKey a) = true
    · rw [hunfold, if_pos hxa]
      rcases ih x with ⟨hmem, hall⟩
      refine ⟨?_, ?_⟩
      · rcases List.mem_cons.mp hmem with h | h
        · rw [h]; exact List.mem_cons_of_mem _ (List.mem_cons_self _ _)
        · exact List.mem_cons_of_mem _ (List.mem_cons_of_mem _ h)
      · intro b hb
        rcases List.mem_cons.mp hb with hb | hb
      -- show the dropped previous best is still not below the minimum
        · subst hb
          by_contra hcon
          rw [Bool.not_eq_false] at hcon
          have := selKeyLt_trans hxa hcon
          rw [hall x (List.mem_cons_self _ _)] at this
          cases this
        · exact hall b hb
    · rw [Bool.not_eq_true] at hxa
      rw [hunfold, if_neg (by rw [hxa]; exact Bool.false_ne_true)]
      rcases ih a with ⟨hmem, hall⟩
      refine ⟨?_, ?_⟩
      · rcases List.mem_cons.mp hmem with h | h
        · rw [h]; exact List.mem_cons_self _ _
        · exact List.mem_cons_of_mem _ (List.mem_cons_of_mem _ h)
      · intro b hb
        rcases List.mem_cons.mp hb with hb | hb
        · subst hb
          exact hall b (List.mem_cons_self _ _)
        · rcases List.mem_cons.mp hb with hb | hb
          · subst hb
            by_contra hcon
            rw [Bool.not_eq_false] at hcon
            have := selKeyLt_of_not_lt_of_lt hxa hcon
            rw [hall a (List.mem_cons_self _ _)] at this
            cases this
          · exact hall b (List.mem_cons_of_mem _ hb)

/-- Claim C9: `get_agent_for_task` returns, among the capability-matching
available agents, one whose selection key — average task duration when any
task was completed and `0` otherwise, tie-broken by current queue length — is
minimal (no qualifying agent compares strictly below it); in particular, with
idle capability-matching workers X (history: average duration 2.0s) and Y (no
completed tasks), Y is chosen. -/
theorem get_agent_for_task_spec :
    (∀ (agents : List Agent) (task : Task) (a : Agent),
      AgentPool.get_agent_for_task agents task = some a →
        a ∈ agents
        ∧ (a.can_handle_task task.type && a.is_available) = true
        ∧ ∀ b ∈ agents, (b.can_handle_task task.type && b.is_available) = true →
            AgentPool.selKeyLt (AgentPool.selectionKey b) (AgentPool.selectionKey a) = false)
    ∧ (∀ (X Y : Agent) (task : Task),
        (X.can_handle_task task.type && X.is_available) = true →
        (Y.can_handle_task task.type && Y.is_available) = true →
        X.metrics.tasks_completed > 0 →
        X.metrics.average_task_duration = 2 →
        Y.metrics.tasks_completed = 0 →
        AgentPool.get_agent_for_task [X, Y] task = some Y) := by
  constructor
  · intro agents task a h
    unfold AgentPool.get_agent_for_task at h
    rcases hcap : agents.filter
        (fun ag => ag.can_handle_task task.type && ag.is_available) with _ | ⟨a0, rest⟩
    · rw [hcap] at h
      cases h
    · rw [hcap] at h
      have ha : a = AgentPool.minByKey a0 rest := (Option.some.inj h).symm
      subst ha
      rcases minByKey_spec a0 rest with ⟨hmem, hall⟩
      rw [← hcap] at hmem
      refine ⟨List.mem_of_mem_filter hmem, (List.mem_filter.mp hmem).2, ?_⟩
      intro b hb hbq
      exact hall b (hcap ▸ List.mem_filter.mpr ⟨hb, hbq⟩)
  · intro X Y task hX hY hXc hXavg hYc
    have hkey : AgentPool.selKeyLt (AgentPool.selectionKey Y) (AgentPool.selectionKey X)
        = true := by
      rw [selKeyLt_iff]
      left
      simp only [AgentPool.selectionKey, hXavg, hYc, if_pos hXc]
      norm_num
    unfold AgentPool.get_agent_for_task
    simp only [List.filter, hX, hY]
    simp [AgentPool.minByKey, hkey]

/-- Witness for `get_agent_for_task_spec`: concrete idle code agents X (one
task completed in 2s) and Y (fresh); Y is selected. -/
theorem get_agent_for_task_spec_witness :
    AgentPool.get_agent_for_task
      [{ id := 1, type := AgentType.code_generator,
         capabilities := { task_types := [TaskType.code_generation] },
         metrics := { tasks_completed := 1, total_execution_time := 2,
                      average_task_duration := 2 } },
       { id := 2, type := AgentType.code_generator,
         capabilities := { task_types := [TaskType.code_generation] } }]
      { id := 7, type := TaskType.code_generation }
      = some { id := 2, type := AgentType.code_generator,
               capabilities := { task_types := [TaskType.code_generation] } } :=
  get_agent_for_task_spec.2
    { id := 1, type := AgentType.code_generator,
      capabilities := { task_types := [TaskType.code_generation] },
      metrics := { tasks_completed := 1, total_execution_time := 2,
                   average_task_duration := 2 } }
    { id := 2, type := AgentType.code_generator,
      capabilities := { task_types := [TaskType.code_generation] } }
    { id := 7, type := TaskType.code_generation }
    (by decide) (by decide) (by decide) (by decide) (by decide)

/-- Claim C6: the worker's `execute_task` boundary converts every exception of
the dispatched unit of work into a failure `TaskResult` (status `failed`, the
stringified error recorded) and always returns a `TaskResult` for the right
task; and the orchestrator's `_execute_task_safe` wrapper removes the task id
and the agent id from the in-flight processing sets whether or not the inner
call raised, so no id stays stuck in flight. -/
theorem execute_task_failure_contained :
    (∀ (agent : Agent) (task : Task) (e : String) (duration : ℚ),
      (BaseAgent.execute_task agent task (Except.error e) duration).2.status
          = ResultStatus.failed
      ∧ (BaseAgent.execute_task agent task (Except.error e) duration).2.error_message
          = some e
      ∧ (BaseAgent.execute_task agent task (Except.error e) duration).2.task_id = task.id)
    ∧ (∀ (agent : Agent) (task : Task) (arts : List String) (itok otok : Nat)
        (duration : ℚ),
      (BaseAgent.execute_task agent task (Except.ok (arts, itok, otok)) duration).2.status
          = ResultStatus.success
      ∧ (BaseAgent.execute_task agent task
          (Except.ok (arts, itok, otok)) duration).2.task_id = task.id)
    ∧ (∀ (task_id agent_id : Nat) (inner : OrchProcessing) (raised : Option String),
      task_id ∉ (Orchestrator.execute_task_safe task_id agent_id
          inner raised).processing_task_ids
      ∧ agent_id ∉ (Orchestrator.execute_task_safe task_id agent_id
          inner raised).processing_agent_ids) := by
  refine ⟨fun agent task e duration => ⟨rfl, rfl, rfl⟩,
          fun agent task arts itok otok duration => ⟨rfl, rfl⟩, ?_⟩
  intro task_id agent_id inner raised
  constructor
  · intro hmem
    rcases List.mem_filter.mp hmem with ⟨_, hne⟩
    simp at hne
  · intro hmem
    rcases List.mem_filter.mp hmem with ⟨_, hne⟩
    simp at hne

/-! Correctness of `validate_no_cycles` on acyclic graphs: the DFS invariant is
that ranks strictly decrease along the active path, so no id can reappear on
it, and each productive call visits a new graph key, so the fuel
`|tasks| + 1` never runs out. -/

lemma length_filter_le_of_imp {l : List Nat} {p q : Nat → Bool}
    (h : ∀ a, p a = true → q a = true) :
    (l.filter p).length ≤ (l.filter q).length := by
  induction l with
  | nil => simp
  | cons x xs ih =>
    by_cases hp : p x = true
    · rw [List.filter_cons, List.filter_cons, if_pos hp, if_pos (h x hp)]
      exact Nat.succ_le_succ ih
    · rw [List.filter_cons, if_neg hp]
      by_cases hq : q x = true
      · rw [List.filter_cons, if_pos hq]
        exact Nat.le_succ_of_le ih
      · rw [List.filter_cons, if_neg hq]
        exact ih

lemma length_filter_unvisited_lt {l : List Nat} {u : Nat} {visited : List Nat}
    (hu : u ∈ l) (hvis : u ∉ visited) :
    (l.filter fun k => decide (k ∉ u :: visited)).length
      < (l.filter fun k => decide (k ∉ visited)).length := by
  induction l with
  | nil => simp at hu
  | cons x xs ih =>
    by_cases hxu : x = u
    · subst hxu
      rw [List.filter_cons, List.filter_cons, if_neg (by simp), if_pos (by simp [hvis])]
      refine Nat.lt_succ_of_le (length_filter_le_of_imp ?_)
      intro a ha
      simp only [decide_eq_true_eq] at ha ⊢
      exact fun hav => ha (List.mem_cons_of_mem _ hav)
    · have hu' : u ∈ xs := by
        rcases List.mem_cons.mp hu with h | h
        · exact absurd h.symm hxu
        · exact h
      have hsame : (decide (x ∉ u :: visited) : Bool) = decide (x ∉ visited) := by
        simp [List.mem_cons, hxu]
      by_cases hxv : x ∈ visited
      · rw [List.filter_cons, List.filter_cons, if_neg (by simp [hxv]),
          if_neg (by simp [hxv])]
        exact ih hu'
      · rw [List.filter_cons, List.filter_cons, if_pos (by simp [hxu, hxv]),
          if_pos (by simp [hxv])]
        exact Nat.succ_lt_succ (ih hu')

lemma unvisitedCount_cons_lt {g : TaskDependencyGraph} {u : Nat} {visited : List Nat}
    (hu : u ∈ g.tasks.map Prod.fst) (hvis : u ∉ visited) :
    unvisitedCount g (u :: visited) < unvisitedCount g visited :=
  length_filter_unvisited_lt hu hvis

lemma unvisitedCount_nil {g : TaskDependencyGraph} :
    unvisitedCount g [] = g.tasks.length := by
  unfold unvisitedCount
  simp

lemma containsTask_of_mem_keys {g : TaskDependencyGraph} {k : Nat}
    (h : k ∈ g.tasks.map Prod.fst) : g.containsTask k = true := by
  obtain ⟨l⟩ := g
  induction l with
  | nil => simp at h
  | cons p rest ih =>
    by_cases hk : p.1 = k
    · simp [TaskDependencyGraph.containsTask, TaskDependencyGraph.findTask, List.find?, hk]
    · have h' : k ∈ rest.map Prod.fst := by
        rcases List.mem_map.mp h with ⟨q, hq, hfst⟩
        rcases List.mem_cons.mp hq with hq1 | hq2
        · exact absurd (hq1 ▸ hfst) hk
        · exact List.mem_map.mpr ⟨q, hq2, hfst⟩
      simpa [TaskDependencyGraph.containsTask, TaskDependencyGraph.findTask,
        List.find?, hk] using ih h'

lemma dfs_ranked {g : TaskDependencyGraph} {rank : Nat → Nat} (hrank : Ranked g rank) :
    ∀ fuel : Nat,
      (∀ u visited path, g.containsTask u = true →
        (∀ x ∈ path, rank u < rank x) →
        unvisitedCount g visited < fuel →
        ∃ v, dfsVisit g fuel u visited path = .ok v ∧ visited ⊆ v ∧
          unvisitedCount g v ≤ unvisitedCount g visited)
      ∧
      (∀ (deps : List Nat) (u0 : Nat),
        (∀ d ∈ deps, g.containsTask d = true → rank d < rank u0) →
        ∀ visited path,
        (∀ x ∈ path, rank u0 ≤ rank x) →
        unvisitedCount g visited < fuel →
        ∃ v, dfsDepsGo g (fun d vv pp => dfsVisit g fuel d vv pp) deps visited path = .ok v
          ∧ visited ⊆ v ∧ unvisitedCount g v ≤ unvisitedCount g visited) := by
  intro fuel
  induction fuel with
  | zero =>
    constructor
    · intro u visited path _ _ hfuel
      exact absurd hfuel (Nat.not_lt_zero _)
    · intro deps u0 _ visited path _ hfuel
      exact absurd hfuel (Nat.not_lt_zero _)
  | succ fuel ih =>
    obtain ⟨ihA, ihB⟩ := ih
    have hA : ∀ u visited path, g.containsTask u = true →
        (∀ x ∈ path, rank u < rank x) →
        unvisitedCount g visited < fuel + 1 →
        ∃ v, dfsVisit g (fuel + 1) u visited path = .ok v ∧ visited ⊆ v ∧
          unvisitedCount g v ≤ unvisitedCount g visited := by
      intro u visited path hu hpath hfuel
      have hnotpath : u ∉ path := fun hx => lt_irrefl _ (hpath u hx)
      by_cases hvis : u ∈ visited
      · exact ⟨visited, by simp [dfsVisit, hnotpath, hvis], fun a ha => ha, le_rfl⟩
      · obtain ⟨task, hfind⟩ := containsTask_iff.mp hu
        have hmem : (u, task) ∈ g.tasks := mem_of_findTask_eq_some hfind
        have hukeys : u ∈ g.tasks.map Prod.fst := List.mem_map.mpr ⟨(u, task), hmem, rfl⟩
        have hdeps0 : ∀ d ∈ task.depends_on, g.containsTask d = true → rank d < rank u :=
          fun d hd hc => hrank (u, task) hmem d hd hc
        have hpath' : ∀ x ∈ path ++ [u], rank u ≤ rank x := by
          intro x hx
          rcases List.mem_append.mp hx with h | h
          · exact le_of_lt (hpath x h)
          · simp at h
            subst h
            exact le_rfl
        have hcnt : unvisitedCount g (u :: visited) < unvisitedCount g visited :=
          unvisitedCount_cons_lt hukeys hvis
        obtain ⟨v, heq, hsub, hc2⟩ :=
          ihB task.depends_on u hdeps0 (u :: visited) (path ++ [u]) hpath' (by omega)
        refine ⟨v, ?_, fun a ha => hsub (List.mem_cons_of_mem _ ha), by omega⟩
        simp only [dfsVisit]
        rw [if_neg hnotpath, if_neg hvis, hfind]
        exact heq
    have hB : ∀ (deps : List Nat) (u0 : Nat),
        (∀ d ∈ deps, g.containsTask d = true → rank d < rank u0) →
        ∀ visited path,
        (∀ x ∈ path, rank u0 ≤ rank x) →
        unvisitedCount g visited < fuel + 1 →
        ∃ v, dfsDepsGo g (fun d vv pp => dfsVisit g (fuel + 1) d vv pp) deps visited path
            = .ok v ∧ visited ⊆ v ∧ unvisitedCount g v ≤ unvisitedCount g visited := by
      intro deps
      induction deps with
      | nil =>
        intro u0 _ visited path _ _
        exact ⟨visited, rfl, fun a ha => ha, le_rfl⟩
      | cons d rest ihdeps =>
        intro u0 hdeps visited path hpath hfuel
        have hdrest : ∀ d' ∈ rest, g.containsTask d' = true → rank d' < rank u0 :=
          fun d' hd' => hdeps d' (List.mem_cons_of_mem _ hd')
        by_cases hc : g.containsTask d = true
        · have hlt : ∀ x ∈ path, rank d < rank x :=
            fun x hx => lt_of_lt_of_le (hdeps d (List.mem_cons_self _ _) hc) (hpath x hx)
          obtain ⟨v1, heq1, hsub1, hcnt1⟩ := hA d visited path hc hlt hfuel
          obtain ⟨v2, heq2, hsub2, hcnt2⟩ :=
            ihdeps u0 hdrest v1 path hpath (by omega)
          refine ⟨v2, ?_, fun a ha => hsub2 (hsub1 ha), le_trans hcnt2 hcnt1⟩
          simp only [dfsDepsGo]
          rw [if_pos hc, heq1]
          exact heq2
        · obtain ⟨v2, heq2, hsub2, hcnt2⟩ := ihdeps u0 hdrest visited path hpath hfuel
          refine ⟨v2, ?_, hsub2, hcnt2⟩
          simp only [dfsDepsGo]
          rw [if_neg hc]
          exact heq2
    exact ⟨hA, hB⟩

lemma validateGo_ranked {g : TaskDependencyGraph} {rank : Nat → Nat}
    (hrank : Ranked g rank) (fuel : Nat) :
    ∀ (roots visited : List Nat),
      (∀ r ∈ roots, g.containsTask r = true) →
      unvisitedCount g visited < fuel →
      validateGo g fuel roots visited = .ok true := by
  intro roots
  induction roots with
  | nil =>
    intro visited _ _
    rfl
  | cons r rest ih =>
    intro visited hroots hfuel
    by_cases hvis : r ∈ visited
    · have hstep : validateGo g fuel (r :: rest) visited = validateGo g fuel rest visited := by
        simp [validateGo, hvis]
      rw [hstep]
      exact ih visited (fun x hx => hroots x (List.mem_cons_of_mem _ hx)) hfuel
    · obtain ⟨v, heq, hsub, hcnt⟩ :=
        (dfs_ranked hrank fuel).1 r visited [] (hroots r (List.mem_cons_self _ _))
          (by intro x hx; simp at hx) hfuel
      have hstep : validateGo g fuel (r :: rest) visited = validateGo g fuel rest v := by
        simp [validateGo, hvis, heq]
      rw [hstep]
      exact ih v (fun x hx => hroots x (List.mem_cons_of_mem _ hx))
        (lt_of_le_of_lt hcnt hfuel)

/-- Claim C4: on the graph with dependency edges A→B→C→A,
`validate_no_cycles` fails carrying exactly the title cycle `[A, B, C, A]`
(the path from the first repeated node back to itself); on every acyclic graph
(one admitting a topological ranking of its dependency edges) it succeeds. -/
theorem validate_no_cycles_spec :
    (∀ tA tB tC : String,
      (triangleGraph tA tB tC).validate_no_cycles = Except.error [tA, tB, tC, tA])
    ∧ (∀ (g : TaskDependencyGraph) (rank : Nat → Nat), Ranked g rank →
        g.validate_no_cycles = Except.ok true) := by
  constructor
  · intro tA tB tC
    rfl
  · intro g rank hrank
    unfold TaskDependencyGraph.validate_no_cycles
    refine validateGo_ranked hrank _ _ _ (fun r hr => containsTask_of_mem_keys hr) ?_
    rw [unvisitedCount_nil]
    exact Nat.lt_succ_self _

/-- Witness for `validate_no_cycles_spec`: a concrete two-task acyclic graph
with the identity ranking validates successfully. -/
theorem validate_no_cycles_spec_witness :
    Ranked (TaskDependencyGraph.mk
      [(1, { id := 1 }), (2, { id := 2, depends_on := [1] })]) (fun n => n)
    ∧ (TaskDependencyGraph.mk
      [(1, { id := 1 }), (2, { id := 2, depends_on := [1] })]).validate_no_cycles
        = Except.ok true :=
  ⟨by decide,
   validate_no_cycles_spec.2
     (TaskDependencyGraph.mk [(1, { id := 1 }), (2, { id := 2, depends_on := [1] })])
     (fun n => n) (by decide)⟩

/-! Rate limiter: behaviour of `acquire` over the virtual clock. -/

namespace RateLimiter

@[simp] lemma refill_request_token_tokens (now : ℚ) (s : RateLimiterState) :
    (refill_request_tokens now s).token_tokens = s.token_tokens := by
  unfold refill_request_tokens
  by_cases h : now - s.last_request_refill ≥ 60 <;> simp [h]

@[simp] lemma refill_request_last_token (now : ℚ) (s : RateLimiterState) :
    (refill_request_tokens now s).last_token_refill = s.last_token_refill := by
  unfold refill_request_tokens
  by_cases h : now - s.last_request_refill ≥ 60 <;> simp [h]

@[simp] lemma refill_request_max_requests (now : ℚ) (s : RateLimiterState) :
    (refill_request_tokens now s).max_requests_per_minute = s.max_requests_per_minute := by
  unfold refill_request_tokens
  by_cases h : now - s.last_request_refill ≥ 60 <;> simp [h]

@[simp] lemma refill_request_max_tokens (now : ℚ) (s : RateLimiterState) :
    (refill_request_tokens now s).max_tokens_per_minute = s.max_tokens_per_minute := by
  unfold refill_request_tokens
  by_cases h : now - s.last_request_refill ≥ 60 <;> simp [h]

@[simp] lemma refill_request_sem (now : ℚ) (s : RateLimiterState) :
    (refill_request_tokens now s).sem = s.sem := by
  unfold refill_request_tokens
  by_cases h : now - s.last_request_refill ≥ 60 <;> simp [h]

@[simp] lemma refill_token_request_tokens (now : ℚ) (s : RateLimiterState) :
    (refill_token_tokens now s).request_tokens = s.request_tokens := by
  unfold refill_token_tokens
  by_cases h : now - s.last_token_refill ≥ 60 <;> simp [h]

@[simp] lemma refill_token_last_request (now : ℚ) (s : RateLimiterState) :
    (refill_token_tokens now s).last_request_refill = s.last_request_refill := by
  unfold refill_token_tokens
  by_cases h : now - s.last_token_refill ≥ 60 <;> simp [h]

@[simp] lemma refill_token_max_requests (now : ℚ) (s : RateLimiterState) :
    (refill_token_tokens now s).max_requests_per_minute = s.max_requests_per_minute := by
  unfold refill_token_tokens
  by_cases h : now - s.last_token_refill ≥ 60 <;> simp [h]

@[simp] lemma refill_token_max_tokens (now : ℚ) (s : RateLimiterState) :
    (refill_token_tokens now s).max_tokens_per_minute = s.max_tokens_per_minute := by
  unfold refill_token_tokens
  by_cases h : now - s.last_token_refill ≥ 60 <;> simp [h]

@[simp] lemma refill_token_sem (now : ℚ) (s : RateLimiterState) :
    (refill_token_tokens now s).sem = s.sem := by
  unfold refill_token_tokens
  by_cases h : now - s.last_token_refill ≥ 60 <;> simp [h]

@[simp] lemma refillBoth_sem (now : ℚ) (s : RateLimiterState) :
    (refillBoth now s).sem = s.sem := by
  unfold refillBoth
  simp

lemma refill_request_tokens_ge {now c : ℚ} {s : RateLimiterState} (hc0 : 0 ≤ c)
    (hcap : c ≤ s.max_requests_per_minute) (htok : c ≤ s.request_tokens)
    (hlast : s.last_request_refill ≤ now) :
    c ≤ (refill_request_tokens now s).request_tokens := by
  unfold refill_request_tokens
  by_cases h : now - s.last_request_refill ≥ 60
  · simpa [h] using hcap
  · simp only [h, if_false]
    refine le_min ?_ hcap
    have hel : 0 ≤ now - s.last_request_refill := by linarith
    have hcapnn : 0 ≤ s.max_requests_per_minute := le_trans hc0 hcap
    have hnn : 0 ≤ (now - s.last_request_refill) / 60 * s.max_requests_per_minute := by
      positivity
    linarith

lemma refill_token_tokens_ge {now c : ℚ} {s : RateLimiterState} (hc0 : 0 ≤ c)
    (hcap : c ≤ s.max_tokens_per_minute) (htok : c ≤ s.token_tokens)
    (hlast : s.last_token_refill ≤ now) :
    c ≤ (refill_token_tokens now s).token_tokens := by
  unfold refill_token_tokens
  by_cases h : now - s.last_token_refill ≥ 60
  · simpa [h] using hcap
  · simp only [h, if_false]
    refine le_min ?_ hcap
    have hel : 0 ≤ now - s.last_token_refill := by linarith
    have hcapnn : 0 ≤ s.max_tokens_per_minute := le_trans hc0 hcap
    have hnn : 0 ≤ (now - s.last_token_refill) / 60 * s.max_tokens_per_minute := by
      positivity
    linarith

lemma refill_request_tokens_full {now : ℚ} {s : RateLimiterState}
    (h : s.last_request_refill + 60 ≤ now) :
    (refill_request_tokens now s).request_tokens = s.max_requests_per_minute := by
  unfold refill_request_tokens
  have h60 : now - s.last_request_refill ≥ 60 := by linarith
  simp [h60]

lemma refill_token_tokens_full {now : ℚ} {s : RateLimiterState}
    (h : s.last_token_refill + 60 ≤ now) :
    (refill_token_tokens now s).token_tokens = s.max_tokens_per_minute := by
  unfold refill_token_tokens
  have h60 : now - s.last_token_refill ≥ 60 := by linarith
  simp [h60]

lemma refill_request_last_le {now : ℚ} {s : RateLimiterState}
    (h : s.last_request_refill ≤ now) :
    (refill_request_tokens now s).last_request_refill ≤ now := by
  unfold refill_request_tokens
  by_cases h60 : now - s.last_request_refill ≥ 60
  · simp [h60]
  · simp only [h60, if_false]
    split <;> simp [h]

lemma refill_token_last_le {now : ℚ} {s : RateLimiterState}
    (h : s.last_token_refill ≤ now) :
    (refill_token_tokens now s).last_token_refill ≤ now := by
  unfold refill_token_tokens
  by_cases h60 : now - s.last_token_refill ≥ 60
  · simp [h60]
  · simp only [h60, if_false]
    split <;> simp [h]

lemma refill_request_wait_pos {now : ℚ} {s : RateLimiterState}
    (hcap : 1 ≤ s.max_requests_per_minute) (_hlast : s.last_request_refill ≤ now)
    (hdef : (refill_request_tokens now s).request_tokens < 1) :
    0 < 60 - (now - (refill_request_tokens now s).last_request_refill) := by
  unfold refill_request_tokens at hdef ⊢
  by_cases h60 : now - s.last_request_refill ≥ 60
  · rw [if_pos h60] at hdef
    simp only at hdef
    linarith
  · rw [if_neg h60] at hdef ⊢
    simp only at hdef ⊢
    split <;> linarith

lemma refill_token_wait_pos {now cost : ℚ} {s : RateLimiterState}
    (hcap : cost ≤ s.max_tokens_per_minute) (_hlast : s.last_token_refill ≤ now)
    (hdef : (refill_token_tokens now s).token_tokens < cost) :
    0 < 60 - (now - (refill_token_tokens now s).last_token_refill) := by
  unfold refill_token_tokens at hdef ⊢
  by_cases h60 : now - s.last_token_refill ≥ 60
  · rw [if_pos h60] at hdef
    simp only at hdef
    linarith
  · rw [if_neg h60] at hdef ⊢
    simp only at hdef ⊢
    split <;> linarith

lemma acquireStep_sufficient {now cost : ℚ} {s : RateLimiterState}
    (h1 : 1 ≤ (refillBoth now s).request_tokens)
    (h2 : cost ≤ (refillBoth now s).token_tokens) :
    acquireStep now cost s =
      ({ refillBoth now s with
          request_tokens := (refillBoth now s).request_tokens - 1,
          token_tokens := (refillBoth now s).token_tokens - cost }, none) := by
  unfold acquireStep
  dsimp only
  rw [if_neg (not_lt.mpr h1), if_neg (not_lt.mpr h2), if_pos (le_refl (0 : ℚ))]

lemma acquireStep_wait_req {now cost : ℚ} {s : RateLimiterState}
    (h1 : (refillBoth now s).request_tokens < 1)
    (h2 : ¬ (refillBoth now s).token_tokens < cost)
    (hpos : 0 < 60 - (now - (refillBoth now s).last_request_refill)) :
    acquireStep now cost s =
      (refillBoth now s, some (60 - (now - (refillBoth now s).last_request_refill))) := by
  unfold acquireStep
  dsimp only
  rw [if_pos h1, if_neg h2, max_eq_right (le_of_lt hpos),
    if_neg (not_le.mpr hpos)]

lemma acquireStep_wait_tok {now cost : ℚ} {s : RateLimiterState}
    (h1 : ¬ (refillBoth now s).request_tokens < 1)
    (h2 : (refillBoth now s).token_tokens < cost)
    (hpos : 0 < 60 - (now - (refillBoth now s).last_token_refill)) :
    acquireStep now cost s =
      (refillBoth now s, some (60 - (now - (refillBoth now s).last_token_refill))) := by
  unfold acquireStep
  dsimp only
  rw [if_neg h1, if_pos h2, if_pos hpos, if_neg (not_le.mpr hpos)]

lemma acquireStep_wait_both {now cost : ℚ} {s : RateLimiterState}
    (h1 : (refillBoth now s).request_tokens < 1)
    (h2 : (refillBoth now s).token_tokens < cost)
    (hposr : 0 < 60 - (now - (refillBoth now s).last_request_refill))
    (hpost : 0 < 60 - (now - (refillBoth now s).last_token_refill)) :
    acquireStep now cost s =
      (refillBoth now s,
        some (max (60 - (now - (refillBoth now s).last_request_refill))
                  (60 - (now - (refillBoth now s).last_token_refill)))) := by
  unfold acquireStep
  dsimp only
  rw [if_pos h1, if_pos h2, max_eq_right (le_of_lt hposr)]
  by_cases hcmp : 60 - (now - (refillBoth now s).last_token_refill)
      > 60 - (now - (refillBoth now s).last_request_refill)
  · rw [if_pos hcmp, max_eq_right (le_of_lt hcmp), if_neg (not_le.mpr hpost)]
  · rw [if_neg hcmp, max_eq_left (not_lt.mp hcmp), if_neg (not_le.mpr hposr)]

lemma acquire_two {now cost w : ℚ} {s s1 : RateLimiterState}
    (hstep : acquireStep now cost s = (s1, some w))
    (h1 : 1 ≤ (refillBoth (now + w) s1).request_tokens)
    (h2 : cost ≤ (refillBoth (now + w) s1).token_tokens) :
    acquire 2 now cost s =
      some ({ refillBoth (now + w) s1 with
                request_tokens := (refillBoth (now + w) s1).request_tokens - 1,
                token_tokens := (refillBoth (now + w) s1).token_tokens - cost,
                sem := (refillBoth (now + w) s1).sem - 1 }, w) := by
  have h2eq : acquire 2 now cost s
      = match acquireStep now cost s with
        | (t, none) => some ({ t with sem := t.sem - 1 }, 0)
        | (t, some u) => (acquire 1 (now + u) cost t).map fun r => (r.1, u + r.2) := rfl
  rw [h2eq, hstep]
  have h1eq : acquire 1 (now + w) cost s1
      = match acquireStep (now + w) cost s1 with
        | (t, none) => some ({ t with sem := t.sem - 1 }, 0)
        | (t, some u) =>
          (acquire 0 (now + w + u) cost t).map fun r => (r.1, u + r.2) := rfl
  dsimp only
  rw [h1eq, acquireStep_sufficient h1 h2]
  simp only [Option.map_some']
  rw [add_zero]

end RateLimiter

/-- Claim C7, amended: `acquire` first refills both buckets (proportionally to
elapsed time, capped at capacity); when both are sufficient it debits the
request bucket by exactly 1 and the volume bucket by exactly `estimatedCost`
in the same locked step and then takes a concurrency-semaphore slot. When a
bucket is short, the computed sleep is the time remaining until 60 seconds
after that bucket's last refill — the next full-refill instant, NOT the
minimum wait until sufficient credit exists (see the counterexample) — taking
the larger across the two deficient buckets; the loop sleeps exactly that
long, and the retry at the new instant succeeds, ending with the semaphore
slot taken. -/
theorem rate_limiter_acquire_spec (s : RateLimiterState) (now cost : ℚ)
    (hlr : s.last_request_refill ≤ now) (hlt : s.last_token_refill ≤ now)
    (hcap : 1 ≤ s.max_requests_per_minute) (hcost : cost ≤ s.max_tokens_per_minute)
    (hc0 : 0 ≤ cost) :
    (1 ≤ (RateLimiter.refillBoth now s).request_tokens →
      cost ≤ (RateLimiter.refillBoth now s).token_tokens →
      RateLimiter.acquire 1 now cost s =
        some ({ RateLimiter.refillBoth now s with
                  request_tokens := (RateLimiter.refillBoth now s).request_tokens - 1,
                  token_tokens := (RateLimiter.refillBoth now s).token_tokens - cost,
                  sem := s.sem - 1 }, 0))
    ∧ ((RateLimiter.refillBoth now s).request_tokens < 1 ∨
        (RateLimiter.refillBoth now s).token_tokens < cost →
      ∃ w, 0 < w
        ∧ RateLimiter.acquireStep now cost s = (RateLimiter.refillBoth now s, some w)
        ∧ ((RateLimiter.refillBoth now s).request_tokens < 1 →
            cost ≤ (RateLimiter.refillBoth now s).token_tokens →
            w = 60 - (now - (RateLimiter.refillBoth now s).last_request_refill))
        ∧ (1 ≤ (RateLimiter.refillBoth now s).request_tokens →
            (RateLimiter.refillBoth now s).token_tokens < cost →
            w = 60 - (now - (RateLimiter.refillBoth now s).last_token_refill))
        ∧ ((RateLimiter.refillBoth now s).request_tokens < 1 →
            (RateLimiter.refillBoth now s).token_tokens < cost →
            w = max (60 - (now - (RateLimiter.refillBoth now s).last_request_refill))
                    (60 - (now - (RateLimiter.refillBoth now s).last_token_refill)))
        ∧ ∃ sf, RateLimiter.acquire 2 now cost s = some (sf, w) ∧ sf.sem = s.sem - 1) := by
  have hs' : RateLimiter.refillBoth now s
      = RateLimiter.refill_token_tokens now (RateLimiter.refill_request_tokens now s) := rfl
  have hsem : (RateLimiter.refillBoth now s).sem = s.sem := by
    rw [hs']
    simp
  have hreq : (RateLimiter.refillBoth now s).request_tokens
      = (RateLimiter.refill_request_tokens now s).request_tokens := by
    rw [hs']
    simp
  have hlreq : (RateLimiter.refillBoth now s).last_request_refill
      = (RateLimiter.refill_request_tokens now s).last_request_refill := by
    rw [hs']
    simp
  have hcapb : (RateLimiter.refillBoth now s).max_requests_per_minute
      = s.max_requests_per_minute := by
    rw [hs']
    simp
  have hcaptb : (RateLimiter.refillBoth now s).max_tokens_per_minute
      = s.max_tokens_per_minute := by
    rw [hs']
    simp
  have hlr1 : (RateLimiter.refillBoth now s).last_request_refill ≤ now := by
    rw [hlreq]
    exact RateLimiter.refill_request_last_le hlr
  have hlt1 : (RateLimiter.refillBoth now s).last_token_refill ≤ now := by
    rw [hs']
    exact RateLimiter.refill_token_last_le (by simpa using hlt)
  constructor
  · intro h1 h2
    have h1eq : RateLimiter.acquire 1 now cost s
        = match RateLimiter.acquireStep now cost s with
          | (t, none) => some ({ t with sem := t.sem - 1 }, 0)
          | (t, some u) =>
            (RateLimiter.acquire 0 (now + u) cost t).map fun r => (r.1, u + r.2) := rfl
    rw [h1eq, RateLimiter.acquireStep_sufficient h1 h2]
    dsimp only
    rw [hsem]
  · intro hdef
    by_cases hr : (RateLimiter.refillBoth now s).request_tokens < 1
    all_goals by_cases ht : (RateLimiter.refillBoth now s).token_tokens < cost
    -- both buckets short
    · have hposr : 0 < 60 - (now - (RateLimiter.refillBoth now s).last_request_refill) := by
        rw [hlreq]
        exact RateLimiter.refill_request_wait_pos hcap hlr (by rw [← hreq]; exact hr)
      have hpost : 0 < 60 - (now - (RateLimiter.refillBoth now s).last_token_refill) := by
        rw [hs'] at ht ⊢
        exact RateLimiter.refill_token_wait_pos (by simpa using hcost) (by simpa using hlt) ht
      refine ⟨_, lt_max_of_lt_left hposr,
        RateLimiter.acquireStep_wait_both hr ht hposr hpost,
        fun _ hno => absurd ht (not_lt.mpr hno),
        fun hno _ => absurd hr (not_lt.mpr hno),
        fun _ _ => rfl, ?_⟩
      set w := max (60 - (now - (RateLimiter.refillBoth now s).last_request_refill))
          (60 - (now - (RateLimiter.refillBoth now s).last_token_refill)) with hw
      have hwr : 60 - (now - (RateLimiter.refillBoth now s).last_request_refill) ≤ w :=
        le_max_left _ _
      have hwt : 60 - (now - (RateLimiter.refillBoth now s).last_token_refill) ≤ w :=
        le_max_right _ _
      have h1 : 1 ≤ (RateLimiter.refillBoth (now + w)
          (RateLimiter.refillBoth now s)).request_tokens := by
        have hfull : (RateLimiter.refillBoth now s).last_request_refill + 60 ≤ now + w := by
          linarith
        show 1 ≤ (RateLimiter.refill_token_tokens _ _).request_tokens
        rw [RateLimiter.refill_token_request_tokens,
          RateLimiter.refill_request_tokens_full hfull, hcapb]
        exact hcap
      have h2 : cost ≤ (RateLimiter.refillBoth (now + w)
          (RateLimiter.refillBoth now s)).token_tokens := by
        have hfull : (RateLimiter.refill_request_tokens (now + w)
            (RateLimiter.refillBoth now s)).last_token_refill + 60 ≤ now + w := by
          rw [RateLimiter.refill_request_last_token]
          linarith
        show cost ≤ (RateLimiter.refill_token_tokens _ _).token_tokens
        rw [RateLimiter.refill_token_tokens_full hfull,
          RateLimiter.refill_request_max_tokens, hcaptb]
        exact hcost
      refine ⟨_, RateLimiter.acquire_two
        (RateLimiter.acquireStep_wait_both hr ht hposr hpost) h1 h2, ?_⟩
      rw [RateLimiter.refillBoth_sem, hsem]
    -- only the request bucket short
    · have hposr : 0 < 60 - (now - (RateLimiter.refillBoth now s).last_request_refill) := by
        rw [hlreq]
        exact RateLimiter.refill_request_wait_pos hcap hlr (by rw [← hreq]; exact hr)
      refine ⟨_, hposr, RateLimiter.acquireStep_wait_req hr ht hposr,
        fun _ _ => rfl,
        fun hno _ => absurd hr (not_lt.mpr hno),
        fun _ hyes => absurd hyes ht, ?_⟩
      set w := 60 - (now - (RateLimiter.refillBoth now s).last_request_refill) with hw
      have h1 : 1 ≤ (RateLimiter.refillBoth (now + w)
          (RateLimiter.refillBoth now s)).request_tokens := by
        have hfull : (RateLimiter.refillBoth now s).last_request_refill + 60 ≤ now + w := by
          rw [hw]
          linarith
        show 1 ≤ (RateLimiter.refill_token_tokens _ _).request_tokens
        rw [RateLimiter.refill_token_request_tokens,
          RateLimiter.refill_request_tokens_full hfull, hcapb]
        exact hcap
      have h2 : cost ≤ (RateLimiter.refillBoth (now + w)
          (RateLimiter.refillBoth now s)).token_tokens := by
        show cost ≤ (RateLimiter.refill_token_tokens _ _).token_tokens
        refine RateLimiter.refill_token_tokens_ge hc0 ?_ ?_ ?_
        · rw [RateLimiter.refill_request_max_tokens, hcaptb]
          exact hcost
        · rw [RateLimiter.refill_request_token_tokens]
          exact not_lt.mp ht
        · rw [RateLimiter.refill_request_last_token]
          linarith
      refine ⟨_, RateLimiter.acquire_two
        (RateLimiter.acquireStep_wait_req hr ht hposr) h1 h2, ?_⟩
      rw [RateLimiter.refillBoth_sem, hsem]
    -- only the volume bucket short
    · have hpost : 0 < 60 - (now - (RateLimiter.refillBoth now s).last_token_refill) := by
        rw [hs'] at ht ⊢
        exact RateLimiter.refill_token_wait_pos (by simpa using hcost) (by simpa using hlt) ht
      refine ⟨_, hpost, RateLimiter.acquireStep_wait_tok hr ht hpost,
        fun hyes _ => absurd hyes hr,
        fun _ _ => rfl,
        fun hyes _ => absurd hyes hr, ?_⟩
      set w := 60 - (now - (RateLimiter.refillBoth now s).last_token_refill) with hw
      have h1 : 1 ≤ (RateLimiter.refillBoth (now + w)
          (RateLimiter.refillBoth now s)).request_tokens := by
        show 1 ≤ (RateLimiter.refill_token_tokens _ _).request_tokens
        rw [RateLimiter.refill_token_request_tokens]
        refine RateLimiter.refill_request_tokens_ge (by norm_num) ?_ ?_ ?_
        · rw [hcapb]
          exact hcap
        · exact not_lt.mp hr
        · linarith
      have h2 : cost ≤ (RateLimiter.refillBoth (now + w)
          (RateLimiter.refillBoth now s)).token_tokens := by
        have hfull : (RateLimiter.refill_request_tokens (now + w)
            (RateLimiter.refillBoth now s)).last_token_refill + 60 ≤ now + w := by
          rw [RateLimiter.refill_request_last_token, hw]
          linarith
        show cost ≤ (RateLimiter.refill_token_tokens _ _).token_tokens
        rw [RateLimiter.refill_token_tokens_full hfull,
          RateLimiter.refill_request_max_tokens, hcaptb]
        exact hcost
      refine ⟨_, RateLimiter.acquire_two
        (RateLimiter.acquireStep_wait_tok hr ht hpost) h1 h2, ?_⟩
      rw [RateLimiter.refillBoth_sem, hsem]
    -- neither short: contradicts the deficiency assumption
    · rcases hdef with hdef | hdef
      · exact absurd hdef hr
      · exact absurd hdef ht

/-- Witness for `rate_limiter_acquire_spec`: the 6th immediate acquire on a
5-requests-per-interval limiter (request bucket drained at time 0). -/
theorem rate_limiter_acquire_spec_witness :
    ((({ max_requests_per_minute := 5, request_tokens := 0, last_request_refill := 0,
         max_tokens_per_minute := 10000, token_tokens := 10000, last_token_refill := 0,
         sem := 2 } : RateLimiterState).last_request_refill ≤ (0 : ℚ))
      ∧ (1 : ℚ) ≤ 5 ∧ (1 : ℚ) ≤ 10000 ∧ (0 : ℚ) ≤ 1)
    ∧ ((RateLimiter.refillBoth 0
          { max_requests_per_minute := 5, request_tokens := 0, last_request_refill := 0,
            max_tokens_per_minute := 10000, token_tokens := 10000, last_token_refill := 0,
            sem := 2 }).request_tokens < 1 ∨
        (RateLimiter.refillBoth 0
          { max_requests_per_minute := 5, request_tokens := 0, last_request_refill := 0,
            max_tokens_per_minute := 10000, token_tokens := 10000, last_token_refill := 0,
            sem := 2 }).token_tokens < 1 →
      ∃ w, 0 < w
        ∧ RateLimiter.acquireStep 0 1
            { max_requests_per_minute := 5, request_tokens := 0, last_request_refill := 0,
              max_tokens_per_minute := 10000, token_tokens := 10000, last_token_refill := 0,
              sem := 2 }
          = (RateLimiter.refillBoth 0
              { max_requests_per_minute := 5, request_tokens := 0, last_request_refill := 0,
                max_tokens_per_minute := 10000, token_tokens := 10000, last_token_refill := 0,
                sem := 2 }, some w)
        ∧ ((RateLimiter.refillBoth 0
              { max_requests_per_minute := 5, request_tokens := 0, last_request_refill := 0,
                max_tokens_per_minute := 10000, token_tokens := 10000, last_token_refill := 0,
                sem := 2 }).request_tokens < 1 →
            (1 : ℚ) ≤ (RateLimiter.refillBoth 0
              { max_requests_per_minute := 5, request_tokens := 0, last_request_refill := 0,
                max_tokens_per_minute := 10000, token_tokens := 10000, last_token_refill := 0,
                sem := 2 }).token_tokens →
            w = 60 - (0 - (RateLimiter.refillBoth 0
              { max_requests_per_minute := 5, request_tokens := 0, last_request_refill := 0,
                max_tokens_per_minute := 10000, token_tokens := 10000, last_token_refill := 0,
                sem := 2 }).last_request_refill))
        ∧ ((1 : ℚ) ≤ (RateLimiter.refillBoth 0
              { max_requests_per_minute := 5, request_tokens := 0, last_request_refill := 0,
                max_tokens_per_minute := 10000, token_tokens := 10000, last_token_refill := 0,
                sem := 2 }).request_tokens →
            (RateLimiter.refillBoth 0
              { max_requests_per_minute := 5, request_tokens := 0, last_request_refill := 0,
                max_tokens_per_minute := 10000, token_tokens := 10000, last_token_refill := 0,
                sem := 2 }).token_tokens < 1 →
            w = 60 - (0 - (RateLimiter.refillBoth 0
              { max_requests_per_minute := 5, request_tokens := 0, last_request_refill := 0,
                max_tokens_per_minute := 10000, token_tokens := 10000, last_token_refill := 0,
                sem := 2 }).last_token_refill))
        ∧ ((RateLimiter.refillBoth 0
              { max_requests_per_minute := 5, request_tokens := 0, last_request_refill := 0,
                max_tokens_per_minute := 10000, token_tokens := 10000, last_token_refill := 0,
                sem := 2 }).request_tokens < 1 →
            (RateLimiter.refillBoth 0
              { max_requests_per_minute := 5, request_tokens := 0, last_request_refill := 0,
                max_tokens_per_minute := 10000, token_tokens := 10000, last_token_refill := 0,
                sem := 2 }).token_tokens < 1 →
            w = max (60 - (0 - (RateLimiter.refillBoth 0
              { max_requests_per_minute := 5, request_tokens := 0, last_request_refill := 0,
                max_tokens_per_minute := 10000, token_tokens := 10000, last_token_refill := 0,
                sem := 2 }).last_request_refill))
              (60 - (0 - (RateLimiter.refillBoth 0
              { max_requests_per_minute := 5, request_tokens := 0, last_request_refill := 0,
                max_tokens_per_minute := 10000, token_tokens := 10000, last_token_refill := 0,
                sem := 2 }).last_token_refill)))
        ∧ ∃ sf, RateLimiter.acquire 2 0 1
            { max_requests_per_minute := 5, request_tokens := 0, last_request_refill := 0,
              max_tokens_per_minute := 10000, token_tokens := 10000, last_token_refill := 0,
              sem := 2 } = some (sf, w) ∧ sf.sem = 2 - 1) :=
  ⟨⟨by decide, by decide, by decide, by decide⟩,
   (rate_limiter_acquire_spec
     { max_requests_per_minute := 5, request_tokens := 0, last_request_refill := 0,
       max_tokens_per_minute := 10000, token_tokens := 10000, last_token_refill := 0,
       sem := 2 } 0 1 (by decide) (by decide) (by decide) (by decide) (by decide)).2⟩

/-- Counterexample to claim C7 as stated: with a 5-per-minute request bucket
holding 0 credits (last refill at the current instant), `acquire` computes a
wait of 60 seconds, although one full request credit — all the call needs —
already exists 12 seconds later; the computed sleep is not the minimum wait
until sufficient credit. -/
theorem c7_wait_not_minimal_counterexample :
    (RateLimiter.acquireStep 0 1
      { max_requests_per_minute := 5, request_tokens := 0, last_request_refill := 0,
        max_tokens_per_minute := 10000, token_tokens := 10000, last_token_refill := 0,
        sem := 2 }).2 = some 60
    ∧ (1 : ℚ) ≤ (RateLimiter.refill_request_tokens 12
      { max_requests_per_minute := 5, request_tokens := 0, last_request_refill := 0,
        max_tokens_per_minute := 10000, token_tokens := 10000, last_token_refill := 0,
        sem := 2 }).request_tokens
    ∧ (1 : ℚ) ≤ (RateLimiter.refill_token_tokens 12
      { max_requests_per_minute := 5, request_tokens := 0, last_request_refill := 0,
        max_tokens_per_minute := 10000, token_tokens := 10000, last_token_refill := 0,
        sem := 2 }).token_tokens
    ∧ (12 : ℚ) < 60 := by
  refine ⟨?_, ?_, ?_, by norm_num⟩
  · show (RateLimiter.acquireStep 0 1 _).2 = some 60
    rw [RateLimiter.acquireStep]
    norm_num [RateLimiter.refillBoth, RateLimiter.refill_request_tokens,
      RateLimiter.refill_token_tokens]
  · norm_num [RateLimiter.refill_request_tokens]
  · norm_num [RateLimiter.refill_token_tokens]

end Swarm
